import Mathlib

/-!
# OpenBrowserClaw — verification of the agent-coordination subsystem

Shallow embedding of the coordinator (`src/orchestrator.ts`), the trigger
pattern (`src/config.ts`) and the agent worker tool-use loop
(`agent-worker`, provided as an unnamed source file) into Lean 4, together
with proofs of the behavioural claims about queue processing, the
tool-use iteration bound, compaction, triggering, and error handling.

Conventions:
* JavaScript strings are modelled as Lean `String` / `List Char`.
* Ambient effects (the IndexedDB message store, the task store, the event
  bus, `Router` calls, `postMessage`) are modelled as explicit state plus
  an output event list.
* `ulid()` and `Date.now()` are modelled as oracle inputs supplied by the
  environment for each step.
-/

namespace OpenBrowserClaw

/-! ## JavaScript string semantics helpers -/

/-- JavaScript word character (`\w` of a RegExp): ASCII letter, digit or
underscore. -/
def isWordChar (c : Char) : Bool :=
  (97 ≤ c.toNat && c.toNat ≤ 122) ||
  (65 ≤ c.toNat && c.toNat ≤ 90) ||
  (48 ≤ c.toNat && c.toNat ≤ 57) ||
  c = '_'

/-- JavaScript whitespace (`\s` of a RegExp, also the class stripped by
`String.prototype.trim`): space, tab, line terminators, vertical tab,
form feed, NBSP, BOM.  (The remaining Unicode space separators are not
produced by any string in this development.) -/
def isJsSpace (c : Char) : Bool :=
  c = ' ' || c = '\t' || c = '\n' || c = '\r' ||
  c.toNat = 11 || c.toNat = 12 || c.toNat = 160 || c.toNat = 65279

/-- ASCII lowercasing, the case folding performed by the RegExp `i` flag on
ASCII subjects. -/
def lowerAscii (c : Char) : Char :=
  if 65 ≤ c.toNat && c.toNat ≤ 90 then Char.ofNat (c.toNat + 32) else c

/-- The operation `String.prototype.trim` on a character list: strip `\s` characters from
both ends. -/
def jsTrimList (cs : List Char) : List Char :=
  ((cs.dropWhile isJsSpace).reverse.dropWhile isJsSpace).reverse

/-- The operation `String.prototype.trim`. -/
def jsTrim (s : String) : String :=
  ⟨jsTrimList s.data⟩

/-- Case-insensitive (ASCII) removal of the pattern characters `ps` from the
front of the subject `cs`; returns the remaining subject on success. -/
def stripCI : List Char → List Char → Option (List Char)
  | [], cs => some cs
  | _ :: _, [] => none
  | p :: ps, c :: cs => if lowerAscii c = lowerAscii p then stripCI ps cs else none

/-- Word-boundary test (`\b`) between the last matched character and the
rest of the subject: the two sides differ in word-character status, an
absent side counting as a non-word character. -/
def boundaryAfter (lastMatched : Char) (rest : List Char) : Bool :=
  match rest with
  | [] => isWordChar lastMatched
  | c :: _ => isWordChar lastMatched != isWordChar c

/-- One attempted match of `@<name>\b` at the current subject position
(which must already satisfy the `(^|\s)` prefix condition). -/
def matchAtHere (name : List Char) (cs : List Char) : Bool :=
  match cs with
  | [] => false
  | c :: rest =>
    c = '@' &&
    (match stripCI name rest with
     | none => false
     | some rem => boundaryAfter (match name.getLast? with
                                  | some l => l
                                  | none => '@') rem)

/-- Scan of the subject for the pattern `(^|\s)@<name>\b` with the `i`
flag: `prevOk` records whether the current position is the start of the
subject or is preceded by a `\s` character. -/
def triggerScan (name : List Char) (prevOk : Bool) : List Char → Bool
  | [] => false
  | c :: rest =>
    (prevOk && matchAtHere name (c :: rest)) || triggerScan name (isJsSpace c) rest

/-- Semantics of `buildTriggerPattern(name).test(content)` from
`src/config.ts`: the RegExp `(^|\s)@<escaped name>\b` with the `i` flag
tested against `content`.  (The escaping step only affects names holding
RegExp metacharacters; the match semantics below treat the name
literally, which coincides with the escaped pattern.) -/
def triggerPatternTest (name : String) (content : String) : Bool :=
  triggerScan name.data true content.data

/-- Does the subject begin with the given pattern characters? -/
def listStartsWith : List Char → List Char → Bool
  | [], _ => true
  | _ :: _, [] => false
  | p :: ps, c :: cs => p = c && listStartsWith ps cs

/-- Search for the first occurrence of `</internal>` and return the
subject remainder after it. -/
def findCloseTag : List Char → Option (List Char)
  | [] => none
  | c :: cs =>
    if listStartsWith "</internal>".data (c :: cs) then some ((c :: cs).drop 11)
    else findCloseTag cs

/-- Fuel-indexed scan implementing the global lazy RegExp replacement
`replace(/<internal>[\s\S]*?<\/internal>/g, '')`: at each position, if the
subject starts with `<internal>` and a `</internal>` follows, the whole
lazy match is deleted and scanning resumes after it; otherwise the
character is kept.  The fuel only needs to cover the subject length. -/
def stripInternalAux : Nat → List Char → List Char
  | 0, cs => cs
  | _ + 1, [] => []
  | fuel + 1, c :: cs =>
    if listStartsWith "<internal>".data (c :: cs) then
      match findCloseTag ((c :: cs).drop 10) with
      | some rest => stripInternalAux fuel rest
      | none => c :: stripInternalAux fuel cs
    else c :: stripInternalAux fuel cs

/-- The operation `text.replace(/<internal>[\s\S]*?<\/internal>/g, '')` from the agent
worker. -/
def stripInternalTags (s : String) : String :=
  ⟨stripInternalAux s.data.length s.data⟩

/-! ## Configuration constants (`src/config.ts`) -/

/-- Default assistant name (used in trigger pattern). -/
def ASSISTANT_NAME : String := "Andy"

/-- Default group for browser chat. -/
def DEFAULT_GROUP_ID : String := "br:main"

/-- How many recent messages to include in agent context. -/
def CONTEXT_WINDOW_SIZE : Nat := 50

/-- Fetch tool response truncation limit. -/
def FETCH_MAX_RESPONSE : Nat := 20000

/-! ## Data model (`src/types.ts`) -/

/-- Originating channel of a message. -/
inductive ChannelType
  | browser
  | telegram
deriving DecidableEq, Repr

/-- Inbound message from any channel. -/
structure InboundMessage where
  id : String
  groupId : String
  sender : String
  content : String
  timestamp : Nat
  channel : ChannelType
deriving DecidableEq, Repr

/-- Stored message (superset of `InboundMessage`). -/
structure StoredMessage where
  id : String
  groupId : String
  sender : String
  content : String
  timestamp : Nat
  channel : ChannelType
  isFromMe : Bool
  isTrigger : Bool
deriving DecidableEq, Repr

/-- Scheduled task. -/
structure Task where
  id : String
  groupId : String
  schedule : String
  prompt : String
  enabled : Bool
  lastRun : Option Nat
  createdAt : Nat
deriving DecidableEq, Repr

/-- Tool input object (`Record<string, unknown>`): the fields the tool
dispatcher reads, each possibly absent. -/
structure ToolInput where
  command : Option String := none
  timeout : Option Nat := none
  path : Option String := none
  content : Option String := none
  url : Option String := none
  method : Option String := none
  body : Option String := none
  schedule : Option String := none
  prompt : Option String := none
  code : Option String := none
deriving DecidableEq, Repr

/-- Content block for tool-use conversations. -/
inductive ContentBlock
  | text (text : String)
  | tool_use (id : String) (name : String) (input : ToolInput)
  | tool_result (tool_use_id : String) (content : String)
deriving DecidableEq, Repr

/-- Role of a conversation message. -/
inductive Role
  | user
  | assistant
deriving DecidableEq, Repr

/-- Content of a conversation message: plain string or block list. -/
inductive MessageContent
  | str (s : String)
  | blocks (bs : List ContentBlock)
deriving DecidableEq, Repr

/-- A message in the Claude API conversation format. -/
structure ConversationMessage where
  role : Role
  content : MessageContent
deriving DecidableEq, Repr

/-- Token usage info from the API. -/
structure TokenUsage where
  groupId : String
  inputTokens : Nat
  outputTokens : Nat
  cacheReadTokens : Nat
  cacheCreationTokens : Nat
  contextLimit : Nat
deriving DecidableEq, Repr

/-- A single entry in the thinking activity log.  (The `timestamp` field,
an ambient clock read in the source, is omitted: no claim concerns it.) -/
structure ThinkingLogEntry where
  groupId : String
  kind : String
  label : String
  detail : Option String := none
deriving DecidableEq, Repr

/-- LLM provider selector. -/
inductive Provider
  | anthropic
  | ollama
deriving DecidableEq, Repr

/-- Payload of an `invoke` / `compact` envelope sent to the agent worker. -/
structure InvokePayload where
  groupId : String
  messages : List ConversationMessage
  systemPrompt : String
  provider : Provider
  apiKey : String
  ollamaUrl : String
  model : String
  maxTokens : Nat
deriving DecidableEq, Repr

/-- Messages sent from main thread to the agent worker. -/
inductive WorkerInbound
  | invoke (payload : InvokePayload)
  | cancel (groupId : String)
  | compact (payload : InvokePayload)
deriving DecidableEq, Repr

/-- Messages sent from the agent worker to the main thread. -/
inductive WorkerOutbound
  | response (groupId : String) (text : String)
  | error (groupId : String) (error : String)
  | typing (groupId : String)
  | toolActivity (groupId : String) (tool : String) (status : String)
  | thinkingLog (entry : ThinkingLogEntry)
  | compactDone (groupId : String) (summary : String)
  | tokenUsage (usage : TokenUsage)
  | taskCreated (task : Task)
deriving DecidableEq, Repr

/-- Orchestrator state machine. -/
inductive OrchestratorState
  | idle
  | thinking
  | responding
deriving DecidableEq, Repr

/-! ## Persistent stores (`src/db.ts`, not among the provided sources) -/

/-- Modelled from the spec: `saveMessage(msg)` of the persistent message
store (`src/db.ts` is not among the provided sources).  The store is an
append-only log per group ordered by timestamp; saving appends the
message. -/
def saveMessage (store : List StoredMessage) (m : StoredMessage) : List StoredMessage :=
  store ++ [m]

/-- Modelled from the spec: `clearGroupMessages(groupId)` removes every
stored message of the group, leaving other groups untouched. -/
def clearGroupMessages (store : List StoredMessage) (groupId : String) : List StoredMessage :=
  store.filter (fun m => m.groupId ≠ groupId)

/-- The stored messages of one group, in store order. -/
def groupMessages (store : List StoredMessage) (groupId : String) : List StoredMessage :=
  store.filter (fun m => m.groupId = groupId)

/-- Modelled from the spec: `buildConversationMessages(groupId, limit)`
builds the bounded conversation window fresh from the last `limit` stored
messages of the group, in original order, mapping each to a
`ConversationMessage` (`isFromMe` marks the assistant role). -/
def buildConversationMessages (store : List StoredMessage) (groupId : String)
    (limit : Nat) : List ConversationMessage :=
  (((groupMessages store groupId).reverse.take limit).reverse).map
    (fun m => { role := if m.isFromMe then .assistant else .user,
                content := .str m.content })

/-- Modelled from the spec: `saveTask(task)` persists a task record. -/
def saveTask (tasks : List Task) (t : Task) : List Task :=
  tasks ++ [t]

/-! ## Coordinator (`src/orchestrator.ts`) -/

/-- The operation mapping a group id to its channel: the `tg:` namespace
routes to the telegram channel, all else to the browser channel. -/
def channelOf (groupId : String) : ChannelType :=
  if groupId.startsWith "tg:" then .telegram else .browser

/-- Observable side effects of a coordinator step: event-bus emissions,
router calls, worker `postMessage` calls, the notification chime and
console logging. -/
inductive Effect
  | stateChange (s : OrchestratorState)
  | messageEvent (m : StoredMessage)
  | typingEvent (groupId : String) (typing : Bool)
  | errorEvent (groupId : String) (error : String)
  | toolActivityEvent (groupId : String) (tool : String) (status : String)
  | thinkingLogEvent (e : ThinkingLogEntry)
  | tokenUsageEvent (u : TokenUsage)
  | contextCompactedEvent (groupId : String) (summary : String)
  | sessionResetEvent (groupId : String)
  | routerSetTyping (groupId : String) (typing : Bool)
  | routerSend (groupId : String) (text : String)
  | postToWorker (msg : WorkerInbound)
  | chime
  | consoleError (s : String)
deriving DecidableEq, Repr

/-- Environment-supplied values consumed by one coordinator step:
`ulid()`, `Date.now()`, and the result of the best-effort
`readGroupFile` of the group memory file `CLAUDE.md` (`none` models a throw, caught and
treated as the empty memory). -/
structure Oracle where
  freshId : String := ""
  now : Nat := 0
  memory : Option String := none
deriving DecidableEq, Repr

/-- Coordinator state: the mutable fields of the `Orchestrator` class that
the modelled methods read or write, plus the external stores it owns.
`pendingInvoke` and `dispatched` are model instrumentation: `pendingInvoke`
records the queue-driven `invokeAgent` calls currently awaited by
`processQueue` (appended at dispatch, removed when the awaited call
settles), and `dispatched` is the cumulative list of queue messages ever
dispatched, in dispatch order. -/
structure Orchestrator where
  state : OrchestratorState := .idle
  messageQueue : List InboundMessage := []
  processing : Bool := false
  store : List StoredMessage := []
  tasks : List Task := []
  pendingScheduledTasks : List String := []
  assistantName : String := ASSISTANT_NAME
  provider : Provider := .anthropic
  apiKey : String := ""
  ollamaUrl : String := ""
  model : String := "claude-sonnet-4-6"
  maxTokens : Nat := 8096
  pendingInvoke : List (String × String) := []
  dispatched : List InboundMessage := []
deriving DecidableEq, Repr

/-- The operation `isConfigured()`: Ollama needs a non-blank URL, Anthropic a non-empty
API key. -/
def Orchestrator.isConfigured (o : Orchestrator) : Bool :=
  match o.provider with
  | .ollama => (jsTrim o.ollamaUrl).length != 0
  | .anthropic => o.apiKey.length != 0

/-- The operation `setState(state)`: record the state and emit a `state-change` event. -/
def Orchestrator.setState (o : Orchestrator) (s : OrchestratorState) :
    Orchestrator × List Effect :=
  ({ o with state := s }, [.stateChange s])

/-- The operation `buildSystemPrompt(assistantName, memory)` from `src/orchestrator.ts`. -/
def buildSystemPrompt (assistantName : String) (memory : String) : String :=
  let parts : List String :=
    [ "You are " ++ assistantName ++ ", a personal AI assistant running in the user\x27s browser.",
      "",
      "You have access to the following tools:",
      "- **bash**: Execute commands in a sandboxed Linux VM (Alpine). Use for scripts, text processing, package installation.",
      "- **javascript**: Execute JavaScript code. Lighter than bash — no VM boot needed. Use for calculations, data transforms.",
      "- **read_file** / **write_file** / **list_files**: Manage files in the group workspace (persisted in browser storage).",
      "- **fetch_url**: Make HTTP requests (subject to CORS).",
      "- **update_memory**: Persist important context to CLAUDE.md — loaded on every conversation.",
      "- **create_task**: Schedule recurring tasks with cron expressions.",
      "",
      "Guidelines:",
      "- Be concise and direct.",
      "- Use tools proactively when they help answer the question.",
      "- Update memory when you learn important preferences or context.",
      "- For scheduled tasks, confirm the schedule with the user.",
      "- Strip <internal> tags from your responses — they are for your internal reasoning only." ]
  let parts := if memory.length != 0
    then parts ++ ["", "## Persistent Memory", "", memory]
    else parts
  String.intercalate "\n" parts

/-- The configuration error text emitted by `processQueue` when the
provider is unconfigured. -/
def configErrorText (p : Provider) : String :=
  match p with
  | .anthropic => "API key not configured. Go to Settings to add your Anthropic API key."
  | .ollama => "Ollama URL not configured. Go to Settings to configure your Ollama Host."

/-- The operation `invokeAgent(groupId, triggerContent)`: transition to `thinking`,
signal typing, persist a scheduled-task prompt as a stored message,
load memory (best effort), build the conversation window and system
prompt, and post an `invoke` envelope to the agent worker.  Resolves
immediately after the `postMessage` — it does not wait for the worker
response. -/
def Orchestrator.invokeAgent (o : Orchestrator) (groupId triggerContent : String)
    (orc : Oracle) : Orchestrator × List Effect :=
  let o := { o with state := OrchestratorState.thinking }
  let effs : List Effect :=
    [.stateChange .thinking, .routerSetTyping groupId true, .typingEvent groupId true]
  let r :=
    if triggerContent.startsWith "[SCHEDULED TASK]" then
      let o := if o.pendingScheduledTasks.contains groupId then o
               else { o with pendingScheduledTasks := o.pendingScheduledTasks ++ [groupId] }
      let stored : StoredMessage :=
        { id := orc.freshId, groupId := groupId, sender := "Scheduler",
          content := triggerContent, timestamp := orc.now,
          channel := channelOf groupId, isFromMe := false, isTrigger := true }
      ({ o with store := saveMessage o.store stored }, effs ++ [.messageEvent stored])
    else (o, effs)
  let o := r.1
  let effs := r.2
  let memory := orc.memory.getD ""
  let messages := buildConversationMessages o.store groupId CONTEXT_WINDOW_SIZE
  let systemPrompt := buildSystemPrompt o.assistantName memory
  (o, effs ++ [.postToWorker (.invoke
      { groupId := groupId, messages := messages, systemPrompt := systemPrompt,
        provider := o.provider, apiKey := o.apiKey, ollamaUrl := o.ollamaUrl,
        model := o.model, maxTokens := o.maxTokens })])

/-- The operation `processQueue()` up to its first suspension: no-op if already
processing or the queue is empty; if unconfigured, drop the head message
and emit a configuration error; otherwise set `processing`, shift the
head and start `invokeAgent` on it. -/
def Orchestrator.processQueue (o : Orchestrator) (orc : Oracle) :
    Orchestrator × List Effect :=
  if o.processing then (o, [])
  else
    match o.messageQueue with
    | [] => (o, [])
    | msg :: rest =>
      if !o.isConfigured then
        ({ o with messageQueue := rest },
         [.errorEvent msg.groupId (configErrorText o.provider)])
      else
        let o := { o with processing := true, messageQueue := rest }
        let r := o.invokeAgent msg.groupId msg.content orc
        ({ r.1 with pendingInvoke := r.1.pendingInvoke ++ [(msg.groupId, msg.content)],
                    dispatched := r.1.dispatched ++ [msg] }, r.2)

/-- Resumption of `processQueue` when the awaited `invokeAgent` call
settles: the `catch` logs a thrown error (`ok = false`), and the
`finally` block always clears `processing` and re-enters `processQueue`
when the queue is non-empty — identical flag behaviour on the normal and
the exceptional path. -/
def Orchestrator.finishInvocation (o : Orchestrator) (ok : Bool) (orc : Oracle) :
    Orchestrator × List Effect :=
  let effs : List Effect := if ok then [] else [.consoleError "Failed to invoke agent:"]
  let o := { o with pendingInvoke := o.pendingInvoke.drop 1, processing := false }
  if o.messageQueue.isEmpty then (o, effs)
  else
    let r := o.processQueue orc
    (r.1, effs ++ r.2)

/-- The operation `enqueue(msg)` up to its call of `processQueue`: evaluate the trigger
predicate (browser main group always triggers, others need the pattern on
the trimmed content), push triggered messages onto the FIFO queue, and
persist the stored message. -/
def Orchestrator.enqueueCore (o : Orchestrator) (msg : InboundMessage) :
    Orchestrator × List Effect :=
  let isBrowserMain := msg.groupId == DEFAULT_GROUP_ID
  let hasTrigger := triggerPatternTest o.assistantName (jsTrim msg.content)
  let trig := isBrowserMain || hasTrigger
  let stored : StoredMessage :=
    { id := msg.id, groupId := msg.groupId, sender := msg.sender,
      content := msg.content, timestamp := msg.timestamp,
      channel := msg.channel, isFromMe := false, isTrigger := trig }
  let o := if trig then { o with messageQueue := o.messageQueue ++ [msg] } else o
  let o := { o with store := saveMessage o.store stored }
  (o, [.messageEvent stored])

/-- The operation `enqueue(msg)`: the trigger/persist step followed by `processQueue`. -/
def Orchestrator.enqueue (o : Orchestrator) (msg : InboundMessage) (orc : Oracle) :
    Orchestrator × List Effect :=
  let r1 := o.enqueueCore msg
  let r2 := r1.1.processQueue orc
  (r2.1, r1.2 ++ r2.2)

/-- The operation `deliverResponse(groupId, text)`: persist the assistant reply, route
it to the owning channel, play the chime for scheduled-task responses,
emit UI events, transition back to `idle` and clear typing. -/
def Orchestrator.deliverResponse (o : Orchestrator) (groupId text : String)
    (orc : Oracle) : Orchestrator × List Effect :=
  let stored : StoredMessage :=
    { id := orc.freshId, groupId := groupId, sender := o.assistantName,
      content := text, timestamp := orc.now, channel := channelOf groupId,
      isFromMe := true, isTrigger := false }
  let o := { o with store := saveMessage o.store stored }
  let effs : List Effect := [.routerSend groupId text]
  let r :=
    if o.pendingScheduledTasks.contains groupId then
      ({ o with pendingScheduledTasks := o.pendingScheduledTasks.erase groupId },
       effs ++ [.chime])
    else (o, effs)
  let o := r.1
  let effs := r.2 ++ [.messageEvent stored, .typingEvent groupId false]
  let r2 := o.setState .idle
  (r2.1, effs ++ r2.2 ++ [.routerSetTyping groupId false])

/-- The operation `handleCompactDone(groupId, summary)`: clear the group history,
store the summary as a single assistant message, emit events and return
to `idle`. -/
def Orchestrator.handleCompactDone (o : Orchestrator) (groupId summary : String)
    (orc : Oracle) : Orchestrator × List Effect :=
  let o := { o with store := clearGroupMessages o.store groupId }
  let stored : StoredMessage :=
    { id := orc.freshId, groupId := groupId, sender := o.assistantName,
      content := "📝 **Context Compacted**\n\n" ++ summary,
      timestamp := orc.now, channel := channelOf groupId,
      isFromMe := true, isTrigger := false }
  let o := { o with store := saveMessage o.store stored }
  let effs : List Effect :=
    [.contextCompactedEvent groupId summary, .typingEvent groupId false]
  let r2 := o.setState .idle
  (r2.1, effs ++ r2.2)

/-- The operation `handleWorkerMessage(msg)`: dispatch on the outbound envelope tag.
(`saveTask` failures are caught and logged in the source; the store model
is total.) -/
def Orchestrator.handleWorkerMessage (o : Orchestrator) (msg : WorkerOutbound)
    (orc : Oracle) : Orchestrator × List Effect :=
  match msg with
  | .response groupId text => o.deliverResponse groupId text orc
  | .taskCreated task => ({ o with tasks := saveTask o.tasks task }, [])
  | .error groupId error => o.deliverResponse groupId ("⚠️ Error: " ++ error) orc
  | .typing groupId => (o, [.routerSetTyping groupId true, .typingEvent groupId true])
  | .toolActivity g t s => (o, [.toolActivityEvent g t s])
  | .thinkingLog e => (o, [.thinkingLogEvent e])
  | .compactDone g summary => o.handleCompactDone g summary orc
  | .tokenUsage u => (o, [.tokenUsageEvent u])

/-! ## Trace semantics of the coordination thread

The coordination thread runs one synchronous segment at a time.  The
segments relevant to queue processing are: an inbound channel message
(`enqueue` up to and including the synchronous prefix of `processQueue`),
the settling of the `invokeAgent` promise awaited by `processQueue` (its
`catch`/`finally`), and an outbound worker envelope (`handleWorkerMessage`).
A `finish` event can only fire while an awaited `invokeAgent` call is
pending, which is exactly when `processing` is set. -/

/-- An environment event driving one synchronous segment. -/
inductive Ev
  | arrive (msg : InboundMessage) (orc : Oracle)
  | finish (ok : Bool) (orc : Oracle)
  | worker (msg : WorkerOutbound) (orc : Oracle)
deriving DecidableEq, Repr

/-- One coordinator transition. -/
inductive Step : Orchestrator → Ev → Orchestrator → Prop
  | arrive (o : Orchestrator) (msg : InboundMessage) (orc : Oracle) :
      Step o (.arrive msg orc) (o.enqueue msg orc).1
  | finish (o : Orchestrator) (ok : Bool) (orc : Oracle) :
      o.processing = true →
      Step o (.finish ok orc) (o.finishInvocation ok orc).1
  | worker (o : Orchestrator) (msg : WorkerOutbound) (orc : Oracle) :
      Step o (.worker msg orc) (o.handleWorkerMessage msg orc).1

/-- A run of the coordinator along a trace of events. -/
inductive RunTrace : Orchestrator → List Ev → Orchestrator → Prop
  | nil (o : Orchestrator) : RunTrace o [] o
  | cons {o o' o'' : Orchestrator} {e : Ev} {evs : List Ev} :
      Step o e o' → RunTrace o' evs o'' → RunTrace o (e :: evs) o''

/-- The fields of the coordinator that queue processing observes or
updates, plus the configuration fields that decide `isConfigured` and the
trigger predicate. -/
structure QView where
  messageQueue : List InboundMessage
  processing : Bool
  pendingInvoke : List (String × String)
  dispatched : List InboundMessage
  provider : Provider
  apiKey : String
  ollamaUrl : String
  assistantName : String
deriving DecidableEq, Repr

/-- Projection onto the queue-relevant fields. -/
def Orchestrator.qview (o : Orchestrator) : QView :=
  { messageQueue := o.messageQueue, processing := o.processing,
    pendingInvoke := o.pendingInvoke, dispatched := o.dispatched,
    provider := o.provider, apiKey := o.apiKey, ollamaUrl := o.ollamaUrl,
    assistantName := o.assistantName }

lemma invokeAgent_qview (o : Orchestrator) (g c : String) (orc : Oracle) :
    ((o.invokeAgent g c orc).1).qview = o.qview := by
  unfold Orchestrator.invokeAgent
  dsimp only
  split <;> (try split) <;> rfl

lemma deliverResponse_qview (o : Orchestrator) (g t : String) (orc : Oracle) :
    ((o.deliverResponse g t orc).1).qview = o.qview := by
  unfold Orchestrator.deliverResponse Orchestrator.setState
  dsimp only
  split <;> rfl

lemma handleCompactDone_qview (o : Orchestrator) (g s : String) (orc : Oracle) :
    ((o.handleCompactDone g s orc).1).qview = o.qview := by
  unfold Orchestrator.handleCompactDone Orchestrator.setState
  rfl

lemma handleWorkerMessage_qview (o : Orchestrator) (msg : WorkerOutbound)
    (orc : Oracle) :
    ((o.handleWorkerMessage msg orc).1).qview = o.qview := by
  cases msg with
  | response g t => exact deliverResponse_qview o g t orc
  | error g e => exact deliverResponse_qview o g _ orc
  | compactDone g s => exact handleCompactDone_qview o g s orc
  | taskCreated t => rfl
  | typing g => rfl
  | toolActivity g t s => rfl
  | thinkingLog e => rfl
  | tokenUsage u => rfl

lemma enqueueCore_qview (o : Orchestrator) (msg : InboundMessage) :
    ((o.enqueueCore msg).1).qview =
      { o.qview with messageQueue := o.messageQueue ++
          (if msg.groupId == DEFAULT_GROUP_ID ||
              triggerPatternTest o.assistantName (jsTrim msg.content)
           then [msg] else []) } := by
  unfold Orchestrator.enqueueCore
  dsimp only
  split <;> simp_all [Orchestrator.qview]

lemma qview_messageQueue {a b : Orchestrator} (h : a.qview = b.qview) :
    a.messageQueue = b.messageQueue := congrArg QView.messageQueue h

lemma qview_processing {a b : Orchestrator} (h : a.qview = b.qview) :
    a.processing = b.processing := congrArg QView.processing h

lemma qview_pendingInvoke {a b : Orchestrator} (h : a.qview = b.qview) :
    a.pendingInvoke = b.pendingInvoke := congrArg QView.pendingInvoke h

lemma qview_dispatched {a b : Orchestrator} (h : a.qview = b.qview) :
    a.dispatched = b.dispatched := congrArg QView.dispatched h

lemma qview_provider {a b : Orchestrator} (h : a.qview = b.qview) :
    a.provider = b.provider := congrArg QView.provider h

lemma qview_apiKey {a b : Orchestrator} (h : a.qview = b.qview) :
    a.apiKey = b.apiKey := congrArg QView.apiKey h

lemma qview_ollamaUrl {a b : Orchestrator} (h : a.qview = b.qview) :
    a.ollamaUrl = b.ollamaUrl := congrArg QView.ollamaUrl h

lemma qview_assistantName {a b : Orchestrator} (h : a.qview = b.qview) :
    a.assistantName = b.assistantName := congrArg QView.assistantName h

lemma qview_isConfigured {a b : Orchestrator} (h : a.qview = b.qview) :
    a.isConfigured = b.isConfigured := by
  unfold Orchestrator.isConfigured
  rw [qview_provider h, qview_apiKey h, qview_ollamaUrl h]

/-- Behaviour of `processQueue` on the queue-relevant fields: no-op while
`processing` is set or the queue is empty; an unconfigured provider drops
the head; otherwise the head moves from the queue to the dispatched /
pending lists with the flag set. -/
lemma processQueue_qview (o : Orchestrator) (orc : Oracle) :
    ((o.processQueue orc).1).qview =
      (if o.processing = true then o.qview
       else
         match o.messageQueue with
         | [] => o.qview
         | msg :: rest =>
           if o.isConfigured = true then
             { o.qview with
               messageQueue := rest
               processing := true
               pendingInvoke := o.pendingInvoke ++ [(msg.groupId, msg.content)]
               dispatched := o.dispatched ++ [msg] }
           else { o.qview with messageQueue := rest }) := by
  unfold Orchestrator.processQueue
  cases hp : o.processing with
  | true => simp [hp]
  | false =>
    simp only [hp, Bool.false_eq_true, if_false]
    cases hq : o.messageQueue with
    | nil => simp
    | cons m rest =>
      cases hc : o.isConfigured with
      | true =>
        have h := invokeAgent_qview
          { o with processing := true, messageQueue := rest } m.groupId m.content orc
        simp only [Orchestrator.qview, QView.mk.injEq] at h
        simp [hc, Orchestrator.qview, h.1, h.2.1, h.2.2.1, h.2.2.2.1, h.2.2.2.2.1,
          h.2.2.2.2.2.1, h.2.2.2.2.2.2]
      | false => simp [hc, hp, Orchestrator.qview]

/-- The single-flight invariant: at most one queue-driven `invokeAgent`
call is pending, and the `processing` flag is set exactly while one is. -/
def QView.SingleFlight (q : QView) : Prop :=
  q.pendingInvoke.length ≤ 1 ∧ (q.processing = true ↔ q.pendingInvoke ≠ [])

lemma processQueue_singleFlight (o : Orchestrator) (orc : Oracle)
    (h : o.qview.SingleFlight) : ((o.processQueue orc).1).qview.SingleFlight := by
  rw [processQueue_qview]
  cases hp : o.processing with
  | true => simpa [hp] using h
  | false =>
    simp only [hp, Bool.false_eq_true, if_false]
    cases hq : o.messageQueue with
    | nil => exact h
    | cons m rest =>
      have hpi : o.pendingInvoke = [] := by
        rcases h with ⟨-, h2⟩
        by_contra hne
        have hproc : o.processing = true := h2.mpr hne
        rw [hp] at hproc
        exact Bool.false_ne_true hproc
      cases hc : o.isConfigured with
      | true => simp [QView.SingleFlight, Orchestrator.qview, hpi]
      | false =>
        simp only [Bool.false_eq_true, if_false]
        exact ⟨h.1, h.2⟩

lemma enqueue_singleFlight (o : Orchestrator) (msg : InboundMessage) (orc : Oracle)
    (h : o.qview.SingleFlight) : ((o.enqueue msg orc).1).qview.SingleFlight := by
  unfold Orchestrator.enqueue
  dsimp only
  apply processQueue_singleFlight
  have hq := enqueueCore_qview o msg
  rcases h with ⟨h1, h2⟩
  constructor
  · rw [hq]
    exact h1
  · rw [hq]
    exact h2

lemma finishInvocation_singleFlight (o : Orchestrator) (ok : Bool) (orc : Oracle)
    (h : o.qview.SingleFlight) :
    ((o.finishInvocation ok orc).1).qview.SingleFlight := by
  unfold Orchestrator.finishInvocation
  dsimp only
  have hdrop : o.pendingInvoke.drop 1 = [] := by
    rcases h with ⟨h1, -⟩
    simp only [Orchestrator.qview] at h1
    cases hpv : o.pendingInvoke with
    | nil => rfl
    | cons a t =>
      cases t with
      | nil => rfl
      | cons b t' => simp [hpv] at h1
  have h' : (({ o with
                pendingInvoke := o.pendingInvoke.drop 1
                processing := false } : Orchestrator)).qview.SingleFlight := by
    refine ⟨?_, ?_⟩ <;> simp [Orchestrator.qview, QView.SingleFlight, hdrop]
  split
  · exact h'
  · exact processQueue_singleFlight _ orc h'

lemma handleWorkerMessage_singleFlight (o : Orchestrator) (msg : WorkerOutbound)
    (orc : Oracle) (h : o.qview.SingleFlight) :
    ((o.handleWorkerMessage msg orc).1).qview.SingleFlight := by
  rw [show ((o.handleWorkerMessage msg orc).1).qview = o.qview from
    handleWorkerMessage_qview o msg orc]
  exact h

/-- Every step of the coordination thread preserves the single-flight
invariant. -/
lemma step_singleFlight {o o' : Orchestrator} {e : Ev} (s : Step o e o')
    (h : o.qview.SingleFlight) : o'.qview.SingleFlight := by
  cases s with
  | arrive msg orc => exact enqueue_singleFlight _ msg orc h
  | finish ok orc hp => exact finishInvocation_singleFlight _ ok orc h
  | worker msg orc => exact handleWorkerMessage_singleFlight _ msg orc h

lemma runTrace_singleFlight {o0 o : Orchestrator} {evs : List Ev}
    (run : RunTrace o0 evs o) (h : o0.qview.SingleFlight) :
    o.qview.SingleFlight := by
  induction run with
  | nil _ => exact h
  | cons s _ ih => exact ih (step_singleFlight s h)

lemma isConfigured_congr {a b : Orchestrator} (hp : a.provider = b.provider)
    (hk : a.apiKey = b.apiKey) (hu : a.ollamaUrl = b.ollamaUrl) :
    a.isConfigured = b.isConfigured := by
  unfold Orchestrator.isConfigured
  rw [hp, hk, hu]

/-- The operation `processQueue` never changes the configuration fields. -/
lemma processQueue_config (o : Orchestrator) (orc : Oracle) :
    ((o.processQueue orc).1).qview.provider = o.provider ∧
    ((o.processQueue orc).1).qview.apiKey = o.apiKey ∧
    ((o.processQueue orc).1).qview.ollamaUrl = o.ollamaUrl ∧
    ((o.processQueue orc).1).qview.assistantName = o.assistantName := by
  rw [processQueue_qview]
  split
  · exact ⟨rfl, rfl, rfl, rfl⟩
  · split
    · exact ⟨rfl, rfl, rfl, rfl⟩
    · split
      · exact ⟨rfl, rfl, rfl, rfl⟩
      · exact ⟨rfl, rfl, rfl, rfl⟩

/-- While the provider is configured, one `processQueue` call conserves
the concatenation of already-dispatched messages and the waiting queue. -/
lemma processQueue_fifo (o : Orchestrator) (orc : Oracle)
    (hc : o.isConfigured = true) :
    ((o.processQueue orc).1).qview.dispatched ++
      ((o.processQueue orc).1).qview.messageQueue =
      o.dispatched ++ o.messageQueue := by
  rw [processQueue_qview]
  cases hp : o.processing with
  | true => simp [Orchestrator.qview]
  | false =>
    simp only [hp, Bool.false_eq_true, if_false]
    cases hq : o.messageQueue with
    | nil => simp [Orchestrator.qview, hq]
    | cons m rest => simp [Orchestrator.qview, hc, List.append_assoc]

/-- The messages a single event contributes to the triggered queue. -/
def evTriggered (name : String) (e : Ev) : List InboundMessage :=
  match e with
  | .arrive m _ =>
      if m.groupId == DEFAULT_GROUP_ID || triggerPatternTest name (jsTrim m.content)
      then [m] else []
  | .finish _ _ => []
  | .worker _ _ => []

/-- The triggered messages among the arrivals of a trace, in arrival
order. -/
def triggeredList (name : String) : List Ev → List InboundMessage
  | [] => []
  | e :: evs => evTriggered name e ++ triggeredList name evs

/-- Every step preserves the configuration fields. -/
lemma step_config {o o' : Orchestrator} {e : Ev} (s : Step o e o') :
    o'.provider = o.provider ∧ o'.apiKey = o.apiKey ∧
    o'.ollamaUrl = o.ollamaUrl ∧ o'.assistantName = o.assistantName := by
  cases s with
  | arrive msg orc =>
    have hcore := enqueueCore_qview o msg
    have h := processQueue_config ((o.enqueueCore msg).1) orc
    refine ⟨?_, ?_, ?_, ?_⟩
    · exact h.1.trans (congrArg QView.provider hcore)
    · exact h.2.1.trans (congrArg QView.apiKey hcore)
    · exact h.2.2.1.trans (congrArg QView.ollamaUrl hcore)
    · exact h.2.2.2.trans (congrArg QView.assistantName hcore)
  | finish ok orc hp =>
    unfold Orchestrator.finishInvocation
    dsimp only
    split
    · exact ⟨rfl, rfl, rfl, rfl⟩
    · exact processQueue_config _ orc
  | worker msg orc =>
    have h := handleWorkerMessage_qview o msg orc
    exact ⟨congrArg QView.provider h, congrArg QView.apiKey h,
      congrArg QView.ollamaUrl h, congrArg QView.assistantName h⟩

/-- FIFO step lemma: while configured, a step extends the cumulative
dispatch order followed by the waiting queue by exactly the triggered
arrivals of the event. -/
lemma step_fifo {o o' : Orchestrator} {e : Ev} (s : Step o e o')
    (hc : o.isConfigured = true) :
    o'.dispatched ++ o'.messageQueue =
      o.dispatched ++ o.messageQueue ++ evTriggered o.assistantName e := by
  cases s with
  | arrive msg orc =>
    unfold Orchestrator.enqueue
    dsimp only
    have hcore := enqueueCore_qview o msg
    have hc' : ((o.enqueueCore msg).1).isConfigured = true := by
      rw [isConfigured_congr (congrArg QView.provider hcore)
        (congrArg QView.apiKey hcore) (congrArg QView.ollamaUrl hcore)]
      exact hc
    have h := processQueue_fifo ((o.enqueueCore msg).1) orc hc'
    rw [show (((o.enqueueCore msg).1.processQueue orc).1).dispatched =
        (((o.enqueueCore msg).1.processQueue orc).1).qview.dispatched from rfl,
      show (((o.enqueueCore msg).1.processQueue orc).1).messageQueue =
        (((o.enqueueCore msg).1.processQueue orc).1).qview.messageQueue from rfl,
      h,
      show ((o.enqueueCore msg).1).dispatched =
        ((o.enqueueCore msg).1).qview.dispatched from rfl,
      show ((o.enqueueCore msg).1).messageQueue =
        ((o.enqueueCore msg).1).qview.messageQueue from rfl,
      hcore]
    simp [evTriggered, Orchestrator.qview, List.append_assoc]
  | finish ok orc hp =>
    unfold Orchestrator.finishInvocation
    dsimp only
    split
    · simp [evTriggered]
    · have h := processQueue_fifo
        ({ o with pendingInvoke := o.pendingInvoke.drop 1, processing := false })
        orc (by simpa [Orchestrator.isConfigured] using hc)
      simpa [evTriggered] using h
  | worker msg orc =>
    have h := handleWorkerMessage_qview o msg orc
    rw [show ((o.handleWorkerMessage msg orc).1).dispatched =
        ((o.handleWorkerMessage msg orc).1).qview.dispatched from rfl,
      show ((o.handleWorkerMessage msg orc).1).messageQueue =
        ((o.handleWorkerMessage msg orc).1).qview.messageQueue from rfl, h]
    simp [evTriggered, Orchestrator.qview]

/-- Trace-level FIFO conservation: starting configured, the dispatched
messages followed by the waiting queue always equal the triggered
arrivals in arrival order (relative to the initial state). -/
lemma runTrace_fifo {o0 o : Orchestrator} {evs : List Ev}
    (run : RunTrace o0 evs o) (hc : o0.isConfigured = true) :
    o.dispatched ++ o.messageQueue =
      o0.dispatched ++ o0.messageQueue ++ triggeredList o0.assistantName evs := by
  induction run with
  | nil _ => simp [triggeredList]
  | cons s r ih =>
    rename_i o o' o'' e evs
    obtain ⟨hp, hk, hu, hn⟩ := step_config s
    have hc' : o'.isConfigured = true := (isConfigured_congr hp hk hu).trans hc
    have h1 := step_fifo s hc
    have h2 := ih hc'
    rw [hn] at h2
    rw [h2, h1]
    simp [triggeredList, List.append_assoc]

/-! ## Agent worker — tool execution (`executeTool`)

The tool implementations (`executeShell`, OPFS file access, `fetch`,
`eval`, `JSON` codecs, `stripHtml`) live outside the dispatcher; they are
modelled as an environment of fallible functions, `Except.error` being a
thrown exception carrying its message. -/

/-- Result shape of `executeShell`. -/
structure ShellResult where
  stdout : String
  stderr : String
  exitCode : Int
deriving DecidableEq, Repr

/-- The JavaScript value returned by the indirect `eval` of the
`javascript` tool, as far as the dispatcher inspects it:
`undefined`, `null`, an object (with its `JSON.stringify(·, null, 2)`
rendering if stringification succeeds, else its `String(·)` rendering),
or any other value via its `String(·)` rendering. -/
inductive JsValue
  | undef
  | nullv
  | obj (jsonRepr : Option String) (strRepr : String)
  | prim (strRepr : String)
deriving DecidableEq, Repr

/-- Result shape of the `fetch` call of the `fetch_url` tool. -/
structure FetchResult where
  status : Nat
  contentType : Option String
  text : String
deriving DecidableEq, Repr

/-- External implementations invoked by the worker: the tool backends and
the ambient JavaScript primitives (`JSON.stringify`, `JSON.parse`,
`stripHtml`) whose own definitions no claim depends on. -/
structure ToolEnv where
  executeShell : Option String → String → Nat → Except String ShellResult
  readGroupFile : String → Option String → Except String String
  writeGroupFile : String → Option String → Option String → Except String Unit
  listGroupFiles : String → String → Except String (List String)
  fetchUrl : ToolInput → Except String FetchResult
  evalJs : Option String → Except String JsValue
  stripHtml : String → String
  stringifyInput : ToolInput → String
  stringifyContent : List ContentBlock → String
  parseJson : String → Option ToolInput

/-- The operation `Math.min((input.timeout as number) || 30, 120)`: a missing or zero
timeout falls back to 30, capped at 120. -/
def shellTimeout (t : Option Nat) : Nat :=
  min (match t with | none => 30 | some 0 => 30 | some n => n) 120

/-- Rendering of a possibly-undefined string in a template literal. -/
def jsString (o : Option String) : String := o.getD "undefined"

/-- Substring test (used for the `includes` check of `html` in the content type). -/
def strContainsSub : List Char → List Char → Bool
  | _, [] => false
  | needle, c :: cs => listStartsWith needle (c :: cs) || strContainsSub needle cs

/-- The operation `hay.includes(needle)` (for non-empty positions; the empty needle is
never used). -/
def strContains (hay needle : String) : Bool :=
  listStartsWith needle.data hay.data || strContainsSub needle.data hay.data

/-- The body of the `executeTool` `switch`, before the enclosing
`try`/`catch`: `.error` is an exception propagating to the dispatcher
catch.  Besides the result string it returns the envelopes posted during
execution (`create_task` posts `task-created`). -/
def executeToolBody (env : ToolEnv) (name : String) (input : ToolInput)
    (groupId : String) (orc : Oracle) :
    Except String (String × List WorkerOutbound) :=
  match name with
  | "bash" =>
    match env.executeShell input.command groupId (shellTimeout input.timeout) with
    | .error e => .error e
    | .ok result =>
      let output := result.stdout
      let output :=
        if result.stderr.length != 0
        then output ++ (if output.length != 0 then "\n" else "") ++ result.stderr
        else output
      let output :=
        if decide (result.exitCode ≠ 0) && (result.stderr.length == 0)
        then output ++ "\n[exit code: " ++ toString result.exitCode ++ "]"
        else output
      .ok (if output.length != 0 then output else "(no output)", [])
  | "read_file" =>
    match env.readGroupFile groupId input.path with
    | .error e => .error e
    | .ok s => .ok (s, [])
  | "write_file" =>
    match env.writeGroupFile groupId input.path input.content with
    | .error e => .error e
    | .ok _ =>
      match input.content with
      | some c =>
        .ok ("Written " ++ toString c.length ++ " bytes to " ++ jsString input.path, [])
      | none =>
        -- `(input.content as string).length` on an absent field throws a
        -- TypeError; the engine-specific message is abstracted.
        .error "Cannot read properties of undefined (reading \x27length\x27)"
  | "list_files" =>
    let path := match input.path with | none => "." | some "" => "." | some p => p
    match env.listGroupFiles groupId path with
    | .error e => .error e
    | .ok entries =>
      .ok (if entries.length != 0 then String.intercalate "\n" entries
           else "(empty directory)", [])
  | "fetch_url" =>
    match env.fetchUrl input with
    | .error e => .error e
    | .ok fr =>
      let contentType := fr.contentType.getD ""
      let status := "[HTTP " ++ toString fr.status ++ "]\n"
      let body :=
        if strContains contentType "html" ||
           (⟨fr.text.data.dropWhile isJsSpace⟩ : String).startsWith "<"
        then env.stripHtml fr.text
        else fr.text
      .ok (status ++ body.take FETCH_MAX_RESPONSE, [])
  | "update_memory" =>
    match env.writeGroupFile groupId (some "CLAUDE.md") input.content with
    | .error e => .error e
    | .ok _ => .ok ("Memory updated successfully.", [])
  | "create_task" =>
    let taskData : Task :=
      { id := orc.freshId, groupId := groupId,
        schedule := jsString input.schedule, prompt := jsString input.prompt,
        enabled := true, lastRun := none, createdAt := orc.now }
    .ok ("Task created successfully.\nSchedule: " ++ jsString input.schedule ++
         "\nPrompt: " ++ jsString input.prompt,
         [.taskCreated taskData])
  | "javascript" =>
    -- the inner try/catch converts eval exceptions itself
    .ok (match env.evalJs input.code with
         | .error e => "JavaScript error: " ++ e
         | .ok .undef => "(no return value)"
         | .ok .nullv => "null"
         | .ok (.obj (some j) _) => j
         | .ok (.obj none s) => s
         | .ok (.prim s) => s, [])
  | _ => .ok ("Unknown tool: " ++ name, [])

/-- The operation `executeTool(name, input, groupId)`: the dispatcher catch converts any
exception into the `Tool error (<name>): <message>` result string. -/
def executeTool (env : ToolEnv) (name : String) (input : ToolInput)
    (groupId : String) (orc : Oracle) : String × List WorkerOutbound :=
  match executeToolBody env name input groupId orc with
  | .ok r => r
  | .error e => ("Tool error (" ++ name ++ "): " ++ e, [])

/-! ## Agent worker — tool-use loops -/

/-- Outcome of one backend HTTP round trip: a decoded response body, a
non-success status (`!res.ok`, thrown as a protocol error), or a
rejection of the `fetch`/decode itself with its message. -/
inductive FetchOutcome (α : Type)
  | ok (result : α)
  | httpError (status : Nat) (body : String)
  | netError (message : String)
deriving DecidableEq, Repr

/-- The operation `getContextLimit(model)`. -/
def getContextLimit (_model : String) : Nat := 200000

/-- The operation `log(groupId, kind, label, detail)`: post a thinking-log envelope. -/
def logEntry (g kind label : String) (detail : Option String) : WorkerOutbound :=
  .thinkingLog { groupId := g, kind := kind, label := label, detail := detail }

/-- Accumulated observable result of one worker invocation: the posted
envelopes, the number of backend round trips performed, and the pending
exception if one was thrown (to be converted by the enclosing catch). -/
structure WorkerRun where
  posts : List WorkerOutbound
  calls : Nat
  thrown : Option String
deriving DecidableEq, Repr

/-- Usage block of an Anthropic response. -/
structure AnthropicUsage where
  input_tokens : Nat
  output_tokens : Nat
  cache_read_input_tokens : Nat
  cache_creation_input_tokens : Nat
deriving DecidableEq, Repr

/-- Decoded Anthropic messages response. -/
structure AnthropicResult where
  content : List ContentBlock
  stop_reason : String
  usage : Option AnthropicUsage
deriving DecidableEq, Repr

/-- The text-block logging pass over a response content list. -/
def textLogs (g : String) : List ContentBlock → List WorkerOutbound
  | [] => []
  | .text t :: bs =>
    (if t.length != 0
     then [logEntry g "text" "Response text"
            (some (if t.length > 200 then t.take 200 ++ "…" else t))]
     else []) ++ textLogs g bs
  | _ :: bs => textLogs g bs

/-- Concatenation of the text blocks of a final response
(the text blocks of `content`, joined with the empty separator). -/
def joinTexts : List ContentBlock → String
  | [] => ""
  | .text t :: bs => t ++ joinTexts bs
  | _ :: bs => joinTexts bs

/-- Final response text of the Anthropic loop: strip `<internal>` tags,
trim, and fall back to the `(no response)` placeholder when empty. -/
def finalResponseText (text : String) : String :=
  let cleaned := jsTrim (stripInternalTags text)
  if cleaned.length != 0 then cleaned else "(no response)"

/-- Execution of the `tool_use` blocks of one Anthropic response: returns
the `tool_result` blocks and the envelopes posted along the way. -/
def runToolUses (env : ToolEnv) (g : String) (orc : Oracle) :
    List ContentBlock → List ContentBlock × List WorkerOutbound
  | [] => ([], [])
  | .tool_use bid bname binput :: bs =>
    let inputPreview := env.stringifyInput binput
    let inputShort :=
      if inputPreview.length > 300 then inputPreview.take 300 ++ "…" else inputPreview
    let r := executeTool env bname binput g orc
    let outputStr := r.1
    let outputShort :=
      if outputStr.length > 500 then outputStr.take 500 ++ "…" else outputStr
    let posts :=
      [logEntry g "tool-call" ("Tool: " ++ bname) (some inputShort),
       .toolActivity g bname "running"] ++ r.2 ++
      [logEntry g "tool-result" ("Result: " ++ bname) (some outputShort),
       .toolActivity g bname "done"]
    let rest := runToolUses env g orc bs
    (ContentBlock.tool_result bid (outputStr.take 100000) :: rest.1, posts ++ rest.2)
  | _ :: bs => runToolUses env g orc bs

/-- Warning text posted when the Anthropic loop exhausts its budget. -/
def maxIterWarningAnthropic : String :=
  "⚠️ Reached maximum tool-use iterations (25). Stopping to avoid excessive API usage."

/-- Warning text posted when the Ollama loop exhausts its budget. -/
def maxIterWarningOllama : String :=
  "⚠️ Reached maximum tool-use iterations. Stopping to avoid infinite loops."

/-- The Anthropic tool-use loop (`while (iterations < maxIterations)`),
fuel = `maxIterations - iterations`.  The backend is the decoded result
of one `fetch` of the messages endpoint as a function of the current
transcript. -/
def invokeAnthropicLoop (env : ToolEnv)
    (backend : List ConversationMessage → FetchOutcome AnthropicResult)
    (g model : String) (orc : Oracle) :
    Nat → List ConversationMessage → Nat → List WorkerOutbound → WorkerRun
  | 0, _, calls, posts =>
    { posts := posts ++ [.response g maxIterWarningAnthropic],
      calls := calls, thrown := none }
  | fuel + 1, msgs, calls, posts =>
    let iterations := calls + 1
    let posts := posts ++
      [logEntry g "api-call" ("API call #" ++ toString iterations)
        (some (toString msgs.length ++ " messages in context"))]
    match backend msgs with
    | .httpError st body =>
      { posts := posts, calls := iterations,
        thrown := some ("Anthropic API error " ++ toString st ++ ": " ++ body) }
    | .netError m => { posts := posts, calls := iterations, thrown := some m }
    | .ok result =>
      let posts := posts ++
        (match result.usage with
         | some u =>
           [.tokenUsage { groupId := g
                          inputTokens := u.input_tokens
                          outputTokens := u.output_tokens
                          cacheReadTokens := u.cache_read_input_tokens
                          cacheCreationTokens := u.cache_creation_input_tokens
                          contextLimit := getContextLimit model }]
         | none => []) ++ textLogs g result.content
      if result.stop_reason == "tool_use" then
        let tr := runToolUses env g orc result.content
        let msgs := msgs ++
          [{ role := .assistant, content := .blocks result.content },
           { role := .user, content := .blocks tr.1 }]
        invokeAnthropicLoop env backend g model orc fuel msgs iterations
          (posts ++ tr.2 ++ [.typing g])
      else
        { posts := posts ++
            [.response g (finalResponseText (joinTexts result.content))],
          calls := iterations, thrown := none }

/-- The operation `invokeAnthropic(payload)`: the whole handler, its try/catch
converting a thrown error into a single `error` envelope.  Returns the
posted envelopes and the number of backend round trips. -/
def invokeAnthropic (env : ToolEnv)
    (backend : List ConversationMessage → FetchOutcome AnthropicResult)
    (payload : InvokePayload) (orc : Oracle) : List WorkerOutbound × Nat :=
  let g := payload.groupId
  let pre : List WorkerOutbound :=
    [.typing g,
     logEntry g "info" "Starting"
       (some ("Model: " ++ payload.model ++ " · Max tokens: " ++
              toString payload.maxTokens))]
  let run := invokeAnthropicLoop env backend g payload.model orc 25
    payload.messages 0 pre
  match run.thrown with
  | none => (run.posts, run.calls)
  | some e => (run.posts ++ [.error g e], run.calls)

/-- One entry of a chat-completion `tool_calls` array.  `argumentsRaw`
is `fn.arguments` (possibly absent). -/
structure OllamaToolCall where
  id : String
  functionName : String
  argumentsRaw : Option String
deriving DecidableEq, Repr

/-- A chat-completion transcript message. -/
structure OllamaMessage where
  role : String
  content : String
  tool_calls : Option (List OllamaToolCall) := none
  tool_call_id : Option String := none
  name : Option String := none
deriving DecidableEq, Repr

/-- Usage block of a chat-completion response. -/
structure OllamaUsage where
  prompt_tokens : Nat
  completion_tokens : Nat
deriving DecidableEq, Repr

/-- Decoded chat-completion response (`result.choices[0]`; a response
with an empty `choices` array, which would throw on member access, is
outside the model). -/
structure OllamaResult where
  finish_reason : String
  message : OllamaMessage
  usage : Option OllamaUsage
deriving DecidableEq, Repr

/-- The operation `role` rendering of a `ConversationMessage`. -/
def roleString : Role → String
  | .user => "user"
  | .assistant => "assistant"

/-- Ollama transcript seeding: optional system message followed by the
conversation window, block contents JSON-stringified. -/
def toOllamaMessages (env : ToolEnv) (systemPrompt : String)
    (messages : List ConversationMessage) : List OllamaMessage :=
  (if systemPrompt.length != 0
   then [{ role := "system", content := systemPrompt }]
   else []) ++
  messages.map (fun m =>
    { role := roleString m.role,
      content := match m.content with
                 | .str s => s
                 | .blocks bs => env.stringifyContent bs })

/-- Final response text of the Ollama loop: empty content falls back to
the placeholder before and after internal-tag stripping and trimming. -/
def ollamaFinalText (content : String) : String :=
  let text := if content.length != 0 then content else "(no response)"
  let cleaned := jsTrim (stripInternalTags text)
  if cleaned.length != 0 then cleaned else "(no response)"

/-- Execution of the `tool_calls` of one chat-completion response:
returns the `role: tool` transcript messages and the envelopes posted
along the way. -/
def runOllamaToolCalls (env : ToolEnv) (g : String) (orc : Oracle) :
    List OllamaToolCall → List OllamaMessage × List WorkerOutbound
  | [] => ([], [])
  | tc :: tcs =>
    let inputStr := match tc.argumentsRaw with
                    | none => "\x7b\x7d"
                    | some s => if s.length != 0 then s else "\x7b\x7d"
    let inputCode := (env.parseJson inputStr).getD {}
    let r := executeTool env tc.functionName inputCode g orc
    let outputStr := r.1
    let posts :=
      [logEntry g "tool-call" ("Tool: " ++ tc.functionName) (some inputStr),
       .toolActivity g tc.functionName "running"] ++ r.2 ++
      [logEntry g "tool-result" ("Result: " ++ tc.functionName)
         (some (if outputStr.length > 500 then outputStr.take 500 ++ "…" else outputStr)),
       .toolActivity g tc.functionName "done"]
    let rest := runOllamaToolCalls env g orc tcs
    ({ role := "tool", content := outputStr.take 100000,
       tool_call_id := some tc.id, name := some tc.functionName } :: rest.1,
     posts ++ rest.2)

/-- The Ollama tool-use loop: same structure as the Anthropic loop over
the chat-completion protocol. -/
def invokeOllamaLoop (env : ToolEnv)
    (backend : List OllamaMessage → FetchOutcome OllamaResult)
    (g : String) (orc : Oracle) :
    Nat → List OllamaMessage → Nat → List WorkerOutbound → WorkerRun
  | 0, _, calls, posts =>
    { posts := posts ++ [.response g maxIterWarningOllama],
      calls := calls, thrown := none }
  | fuel + 1, msgs, calls, posts =>
    let iterations := calls + 1
    let posts := posts ++
      [logEntry g "api-call" ("Ollama API call #" ++ toString iterations)
        (some (toString msgs.length ++ " messages in context"))]
    match backend msgs with
    | .httpError st body =>
      { posts := posts, calls := iterations,
        thrown := some ("Ollama API error " ++ toString st ++ ": " ++ body) }
    | .netError m => { posts := posts, calls := iterations, thrown := some m }
    | .ok result =>
      let message := result.message
      let posts := posts ++
        (match result.usage with
         | some u =>
           [.tokenUsage { groupId := g
                          inputTokens := u.prompt_tokens
                          outputTokens := u.completion_tokens
                          cacheReadTokens := 0
                          cacheCreationTokens := 0
                          contextLimit := 8192 }]
         | none => []) ++
        (if message.content.length != 0
         then [logEntry g "text" "Response text"
                (some (if message.content.length > 200
                       then message.content.take 200 ++ "…"
                       else message.content))]
         else [])
      let msgs := msgs ++ [message]
      if result.finish_reason == "tool_calls" && message.tool_calls.isSome then
        let tr := runOllamaToolCalls env g orc (message.tool_calls.getD [])
        invokeOllamaLoop env backend g orc fuel (msgs ++ tr.1) iterations
          (posts ++ tr.2 ++ [.typing g])
      else
        { posts := posts ++ [.response g (ollamaFinalText message.content)],
          calls := iterations, thrown := none }

/-- The operation `invokeOllama(payload)`: the whole handler with its try/catch. -/
def invokeOllama (env : ToolEnv)
    (backend : List OllamaMessage → FetchOutcome OllamaResult)
    (payload : InvokePayload) (orc : Oracle) : List WorkerOutbound × Nat :=
  let g := payload.groupId
  let pre : List WorkerOutbound :=
    [.typing g,
     logEntry g "info" "Starting (Ollama)" (some ("Model: " ++ payload.model))]
  let run := invokeOllamaLoop env backend g orc 25
    (toOllamaMessages env payload.systemPrompt payload.messages) 0 pre
  match run.thrown with
  | none => (run.posts, run.calls)
  | some e => (run.posts ++ [.error g e], run.calls)

/-! ## Claim theorems -/

/-- Claim **C4** — The trigger predicate on an inbound message is: content
matches `@<assistantName>` at a word boundary case-insensitively (on the
trimmed content), or the group is the default local group (which always
triggers); with the default name the pattern matches `"@Andy"` and
`"hi @andy can you"` and does not match `"@Andyson"`.  The first conjunct
ties the queue push of `enqueue` to exactly this predicate. -/
theorem C4_trigger_predicate :
    (∀ (o : Orchestrator) (msg : InboundMessage),
      ((o.enqueueCore msg).1).messageQueue =
        o.messageQueue ++
          (if msg.groupId == DEFAULT_GROUP_ID ||
              triggerPatternTest o.assistantName (jsTrim msg.content)
           then [msg] else [])) ∧
    (∀ (o : Orchestrator) (msg : InboundMessage), msg.groupId = DEFAULT_GROUP_ID →
      ((o.enqueueCore msg).1).messageQueue = o.messageQueue ++ [msg]) ∧
    ASSISTANT_NAME = "Andy" ∧
    triggerPatternTest ASSISTANT_NAME "@Andy" = true ∧
    triggerPatternTest ASSISTANT_NAME "hi @andy can you" = true ∧
    triggerPatternTest ASSISTANT_NAME "@Andyson" = false := by
  refine ⟨?_, ?_, rfl, by decide, by decide, by decide⟩
  · intro o msg
    exact congrArg QView.messageQueue (enqueueCore_qview o msg)
  · intro o msg h
    have h1 := congrArg QView.messageQueue (enqueueCore_qview o msg)
    simpa [h] using h1

/-- Claim **C4 witness** — a concrete message addressed to the default local
group is pushed onto the queue. -/
theorem C4_trigger_predicate_witness :
    (({ apiKey := "k" } : Orchestrator).enqueueCore
      { id := "1", groupId := "br:main", sender := "u", content := "hello",
        timestamp := 0, channel := .browser }).1.messageQueue =
      [{ id := "1", groupId := "br:main", sender := "u", content := "hello",
         timestamp := 0, channel := .browser }] := by
  have h := C4_trigger_predicate.2.1 ({ apiKey := "k" } : Orchestrator)
    { id := "1", groupId := "br:main", sender := "u", content := "hello",
      timestamp := 0, channel := .browser } rfl
  simpa using h

/-- Claim **C8** — If the backend is unconfigured when the queue is drained,
`processQueue` removes exactly the head message, emits a configuration
error for the group of that message, dispatches no invocation, changes nothing
else, and returns totally (no crash, no retry of the dropped message). -/
theorem C8_unconfigured_drop (o : Orchestrator) (orc : Oracle)
    (m : InboundMessage) (rest : List InboundMessage)
    (hp : o.processing = false) (hc : o.isConfigured = false)
    (hq : o.messageQueue = m :: rest) :
    o.processQueue orc =
      ({ o with messageQueue := rest },
       [.errorEvent m.groupId (configErrorText o.provider)]) := by
  unfold Orchestrator.processQueue
  rw [hp, hq, hc]
  simp

/-- Claim **C8 witness** — a concrete unconfigured coordinator drops the head
message and emits the Anthropic configuration error. -/
theorem C8_unconfigured_drop_witness :
    ({ messageQueue := [{ id := "1", groupId := "br:main", sender := "u",
                          content := "hello", timestamp := 0,
                          channel := .browser }] } : Orchestrator).processQueue {} =
      (({ } : Orchestrator),
       [.errorEvent "br:main"
          "API key not configured. Go to Settings to add your Anthropic API key."]) := by
  have h := C8_unconfigured_drop
    ({ messageQueue := [{ id := "1", groupId := "br:main", sender := "u",
                          content := "hello", timestamp := 0,
                          channel := .browser }] } : Orchestrator) {}
    { id := "1", groupId := "br:main", sender := "u", content := "hello",
      timestamp := 0, channel := .browser } [] rfl rfl rfl
  simpa using h

lemma groupMessages_clear (store : List StoredMessage) (g : String) :
    groupMessages (clearGroupMessages store g) g = [] := by
  induction store with
  | nil => rfl
  | cons m t ih =>
    by_cases h : m.groupId = g <;>
      simp [clearGroupMessages, groupMessages, h] at ih ⊢

/-- Claim **C3** — Handling a `compact-done` envelope for a group replaces the
stored history of the group with exactly one message containing the summary
text, every subsequent conversation-window build for the group sees only
that summary message, and the coordinator returns to `idle`. -/
theorem C3_compact_done (o : Orchestrator) (g summary : String) (orc : Oracle) :
    groupMessages ((o.handleCompactDone g summary orc).1).store g =
      [{ id := orc.freshId, groupId := g, sender := o.assistantName,
         content := "📝 **Context Compacted**\n\n" ++ summary,
         timestamp := orc.now, channel := channelOf g,
         isFromMe := true, isTrigger := false }] ∧
    buildConversationMessages ((o.handleCompactDone g summary orc).1).store g
        CONTEXT_WINDOW_SIZE =
      [{ role := .assistant,
         content := .str ("📝 **Context Compacted**\n\n" ++ summary) }] ∧
    ((o.handleCompactDone g summary orc).1).state = .idle := by
  have hstore : ((o.handleCompactDone g summary orc).1).store =
      clearGroupMessages o.store g ++
        [{ id := orc.freshId, groupId := g, sender := o.assistantName,
           content := "📝 **Context Compacted**\n\n" ++ summary,
           timestamp := orc.now, channel := channelOf g,
           isFromMe := true, isTrigger := false }] := rfl
  have hgm : groupMessages ((o.handleCompactDone g summary orc).1).store g =
      [{ id := orc.freshId, groupId := g, sender := o.assistantName,
         content := "📝 **Context Compacted**\n\n" ++ summary,
         timestamp := orc.now, channel := channelOf g,
         isFromMe := true, isTrigger := false }] := by
    rw [hstore]
    unfold groupMessages at *
    rw [List.filter_append]
    have h0 := groupMessages_clear o.store g
    unfold groupMessages at h0
    rw [h0]
    simp
  refine ⟨hgm, ?_, rfl⟩
  unfold buildConversationMessages
  rw [hgm]
  rfl

/-- The state reached by `deliverResponse` is always `idle`. -/
lemma deliverResponse_state (o : Orchestrator) (g t : String) (orc : Oracle) :
    ((o.deliverResponse g t orc).1).state = .idle := rfl

/-- Does an outbound worker envelope signal completion of an invocation
or compaction? -/
def isCompletionEnvelope : WorkerOutbound → Bool
  | .response _ _ => true
  | .error _ _ => true
  | .compactDone _ _ => true
  | _ => false

/-- Claim **C6** — For every outbound worker envelope that signals completion
(response, error, or compact-done), the coordinator handler ends with the
state transitioned to `idle`. -/
theorem C6_completion_idle (o : Orchestrator) (msg : WorkerOutbound) (orc : Oracle)
    (h : isCompletionEnvelope msg = true) :
    ((o.handleWorkerMessage msg orc).1).state = .idle := by
  cases msg with
  | response g t => exact deliverResponse_state o g t orc
  | error g e => exact deliverResponse_state o g _ orc
  | compactDone g s => rfl
  | typing g => simp [isCompletionEnvelope] at h
  | toolActivity g t s => simp [isCompletionEnvelope] at h
  | thinkingLog e => simp [isCompletionEnvelope] at h
  | tokenUsage u => simp [isCompletionEnvelope] at h
  | taskCreated t => simp [isCompletionEnvelope] at h

/-- Claim **C6 witness** — a concrete error envelope drives a thinking
coordinator back to `idle`. -/
theorem C6_completion_idle_witness :
    ((({ state := .thinking, apiKey := "k" } : Orchestrator).handleWorkerMessage
        (.error "br:main" "boom") {}).1).state = .idle :=
  C6_completion_idle { state := .thinking, apiKey := "k" }
    (.error "br:main" "boom") {} rfl

/-- Claim **C1** — Single-flight through the queue-driven path, for every
interleaving of enqueued messages: (1) `processQueue` is a no-op while the
`processing` flag is set; (2) the flag handling on completion is identical
whether the awaited invocation resolved or threw (the `finally`-equivalent
path), so an exception never leaves the flag set where normal completion
would have cleared it; (3) with an empty queue the flag is released
outright; (4) along every event trace, at most one queue-driven
`invokeAgent` call is pending at a time and the flag is set exactly while
one is. -/
theorem C1_single_flight :
    (∀ (o : Orchestrator) (orc : Oracle),
      o.processing = true → o.processQueue orc = (o, [])) ∧
    (∀ (o : Orchestrator) (orc : Oracle),
      (o.finishInvocation true orc).1 = (o.finishInvocation false orc).1) ∧
    (∀ (o : Orchestrator) (ok : Bool) (orc : Oracle),
      o.messageQueue = [] → ((o.finishInvocation ok orc).1).processing = false) ∧
    (∀ (o0 o : Orchestrator) (evs : List Ev),
      RunTrace o0 evs o → o0.qview.SingleFlight → o.qview.SingleFlight) := by
  refine ⟨?_, ?_, ?_, ?_⟩
  · intro o orc h
    unfold Orchestrator.processQueue
    rw [h]
    simp
  · intro o orc
    unfold Orchestrator.finishInvocation
    dsimp only
    split <;> rfl
  · intro o ok orc h
    unfold Orchestrator.finishInvocation
    dsimp only
    simp [h]
  · intro o0 o evs run h
    exact runTrace_singleFlight run h

/-- Claim **C1 witness** — a concrete interleaving: two triggered messages
arrive while the first is being processed, the first invocation settles
by throwing; the single-flight invariant holds at the end, and a
concrete busy coordinator ignores `processQueue`. -/
theorem C1_single_flight_witness :
    (({ apiKey := "k", processing := true } : Orchestrator).processQueue {} =
      ({ apiKey := "k", processing := true }, [])) ∧
    ((({ apiKey := "k", messageQueue := [] } : Orchestrator).finishInvocation
        false {}).1).processing = false ∧
    (((((({ apiKey := "k" } : Orchestrator).enqueue
          { id := "1", groupId := "br:main", sender := "u", content := "hello",
            timestamp := 0, channel := .browser } {}).1).enqueue
          { id := "2", groupId := "br:main", sender := "u", content := "again",
            timestamp := 1, channel := .browser } {}).1.finishInvocation
          false {}).1).qview.SingleFlight := by
  refine ⟨C1_single_flight.1 _ {} rfl, C1_single_flight.2.2.1 _ false {} rfl, ?_⟩
  have run : RunTrace ({ apiKey := "k" } : Orchestrator)
      [.arrive { id := "1", groupId := "br:main", sender := "u",
                 content := "hello", timestamp := 0, channel := .browser } {},
       .arrive { id := "2", groupId := "br:main", sender := "u",
                 content := "again", timestamp := 1, channel := .browser } {},
       .finish false {}]
      (((((({ apiKey := "k" } : Orchestrator).enqueue
          { id := "1", groupId := "br:main", sender := "u", content := "hello",
            timestamp := 0, channel := .browser } {}).1).enqueue
          { id := "2", groupId := "br:main", sender := "u", content := "again",
            timestamp := 1, channel := .browser } {}).1.finishInvocation
          false {}).1) :=
    RunTrace.cons (Step.arrive _ _ _)
      (RunTrace.cons (Step.arrive _ _ _)
        (RunTrace.cons (Step.finish _ false {} (by decide)) (RunTrace.nil _)))
  exact C1_single_flight.2.2.2 _ _ _ run
    (by constructor <;> simp [Orchestrator.qview])

/-- Claim **C5** — When multiple triggered messages are enqueued before
processing completes, the queue is drained in strict FIFO arrival order:
along every trace from a configured coordinator with empty queues, the
cumulative dispatch order followed by the waiting queue equals the
triggered arrivals in arrival order, so the dispatched messages are
always a prefix of the triggered-arrival sequence. -/
theorem C5_fifo_order (o0 o : Orchestrator) (evs : List Ev)
    (run : RunTrace o0 evs o) (hc : o0.isConfigured = true)
    (hd : o0.dispatched = []) (hq : o0.messageQueue = []) :
    o.dispatched ++ o.messageQueue = triggeredList o0.assistantName evs ∧
    o.dispatched = (triggeredList o0.assistantName evs).take o.dispatched.length := by
  have h := runTrace_fifo run hc
  rw [hd, hq] at h
  simp only [List.nil_append] at h
  refine ⟨h, ?_⟩
  rw [← h, List.take_left]

/-- Claim **C5 witness** — two triggered messages arriving before processing
completes are dispatched in arrival order on a concrete trace. -/
theorem C5_fifo_order_witness :
    (((((({ apiKey := "k" } : Orchestrator).enqueue
        { id := "1", groupId := "br:main", sender := "u", content := "hello",
          timestamp := 0, channel := .browser } {}).1).enqueue
        { id := "2", groupId := "br:main", sender := "u", content := "again",
          timestamp := 1, channel := .browser } {}).1.finishInvocation
        false {}).1).dispatched ++
    (((((({ apiKey := "k" } : Orchestrator).enqueue
        { id := "1", groupId := "br:main", sender := "u", content := "hello",
          timestamp := 0, channel := .browser } {}).1).enqueue
        { id := "2", groupId := "br:main", sender := "u", content := "again",
          timestamp := 1, channel := .browser } {}).1.finishInvocation
        false {}).1).messageQueue =
      triggeredList ASSISTANT_NAME
        [.arrive { id := "1", groupId := "br:main", sender := "u",
                   content := "hello", timestamp := 0, channel := .browser } {},
         .arrive { id := "2", groupId := "br:main", sender := "u",
                   content := "again", timestamp := 1, channel := .browser } {},
         .finish false {}] := by
  have run : RunTrace ({ apiKey := "k" } : Orchestrator)
      [.arrive { id := "1", groupId := "br:main", sender := "u",
                 content := "hello", timestamp := 0, channel := .browser } {},
       .arrive { id := "2", groupId := "br:main", sender := "u",
                 content := "again", timestamp := 1, channel := .browser } {},
       .finish false {}]
      (((((({ apiKey := "k" } : Orchestrator).enqueue
          { id := "1", groupId := "br:main", sender := "u", content := "hello",
            timestamp := 0, channel := .browser } {}).1).enqueue
          { id := "2", groupId := "br:main", sender := "u", content := "again",
            timestamp := 1, channel := .browser } {}).1.finishInvocation
          false {}).1) :=
    RunTrace.cons (Step.arrive _ _ _)
      (RunTrace.cons (Step.arrive _ _ _)
        (RunTrace.cons (Step.finish _ false {} (by decide)) (RunTrace.nil _)))
  exact (C5_fifo_order _ _ _ run rfl rfl rfl).1

/-- A tool environment in which every external implementation throws
`boom`. -/
def throwingEnv : ToolEnv :=
  { executeShell := fun _ _ _ => .error "boom"
    readGroupFile := fun _ _ => .error "boom"
    writeGroupFile := fun _ _ _ => .error "boom"
    listGroupFiles := fun _ _ => .error "boom"
    fetchUrl := fun _ => .error "boom"
    evalJs := fun _ => .error "boom"
    stripHtml := fun s => s
    stringifyInput := fun _ => "null"
    stringifyContent := fun _ => "null"
    parseJson := fun _ => none }

/-- Claim **C9 counterexample** — for the `javascript` tool a throwing
implementation yields `JavaScript error: <message>`, not
`Tool error (javascript): <message>`: the claim fails at tool name
`javascript`. -/
theorem C9_counterexample :
    (executeTool throwingEnv "javascript" {} "g" {}).1 = "JavaScript error: boom" ∧
    "JavaScript error: boom" ≠ "Tool error (javascript): boom" :=
  ⟨rfl, by decide⟩

/-- Claim **C9 amended** — for every tool except `javascript`, a throwing
implementation makes `executeTool` return
`Tool error (<name>): <message>` (with no envelopes posted) instead of
propagating the exception; for the `javascript` tool the inner catch
returns `JavaScript error: <message>` instead.  In all cases the result
is a string and the exception never escapes (`executeTool` is total by
construction). -/
theorem C9_tool_error_strings (env : ToolEnv) (input : ToolInput) (g : String)
    (orc : Oracle) (e : String) :
    (env.executeShell input.command g (shellTimeout input.timeout) = .error e →
      executeTool env "bash" input g orc = ("Tool error (bash): " ++ e, [])) ∧
    (env.readGroupFile g input.path = .error e →
      executeTool env "read_file" input g orc = ("Tool error (read_file): " ++ e, [])) ∧
    (env.writeGroupFile g input.path input.content = .error e →
      executeTool env "write_file" input g orc = ("Tool error (write_file): " ++ e, [])) ∧
    (env.listGroupFiles g
        (match input.path with | none => "." | some "" => "." | some p => p) = .error e →
      executeTool env "list_files" input g orc = ("Tool error (list_files): " ++ e, [])) ∧
    (env.fetchUrl input = .error e →
      executeTool env "fetch_url" input g orc = ("Tool error (fetch_url): " ++ e, [])) ∧
    (env.writeGroupFile g (some "CLAUDE.md") input.content = .error e →
      executeTool env "update_memory" input g orc =
        ("Tool error (update_memory): " ++ e, [])) ∧
    (env.evalJs input.code = .error e →
      executeTool env "javascript" input g orc = ("JavaScript error: " ++ e, [])) := by
  refine ⟨?_, ?_, ?_, ?_, ?_, ?_, ?_⟩ <;>
    intro h <;> simp [executeTool, executeToolBody, h]

/-- Claim **C9 witness** — a failing file read returns the tool-error string. -/
theorem C9_tool_error_strings_witness :
    executeTool throwingEnv "read_file" {} "g" {} =
      ("Tool error (read_file): boom", []) :=
  (C9_tool_error_strings throwingEnv {} "g" {} "boom").2.1 rfl

/-- Is an envelope an `error` envelope? -/
def isErrorEnvelope : WorkerOutbound → Bool
  | .error _ _ => true
  | _ => false

/-- A post list holding no `error` envelopes. -/
def NoErrorEnvelopes (ws : List WorkerOutbound) : Prop :=
  ∀ a ∈ ws, isErrorEnvelope a = false

lemma noErrors_append {a b : List WorkerOutbound}
    (ha : NoErrorEnvelopes a) (hb : NoErrorEnvelopes b) :
    NoErrorEnvelopes (a ++ b) := by
  intro x hx
  rcases List.mem_append.mp hx with h | h
  · exact ha x h
  · exact hb x h

lemma noErrors_filter {ws : List WorkerOutbound} (h : NoErrorEnvelopes ws) :
    ws.filter isErrorEnvelope = [] := by
  induction ws with
  | nil => rfl
  | cons w t ih =>
    have hw := h w (List.mem_cons_self w t)
    have ht : NoErrorEnvelopes t := fun a ha => h a (List.mem_cons_of_mem w ha)
    simp [List.filter, hw, ih ht]

lemma noErrors_nil : NoErrorEnvelopes [] := by
  intro a ha
  exact absurd ha (List.not_mem_nil a)

lemma noErrors_cons {w : WorkerOutbound} {ws : List WorkerOutbound}
    (hw : isErrorEnvelope w = false) (h : NoErrorEnvelopes ws) :
    NoErrorEnvelopes (w :: ws) := by
  intro a ha
  rcases List.mem_cons.mp ha with h' | h'
  · rw [h']
    exact hw
  · exact h a h'

/-- Every branch of the tool dispatcher body produces either no posts or
a single `task-created` post, or throws. -/
lemma executeToolBody_shape (env : ToolEnv) (name : String) (input : ToolInput)
    (g : String) (orc : Oracle) :
    (∃ s, executeToolBody env name input g orc = .ok (s, [])) ∨
    (∃ s t, executeToolBody env name input g orc = .ok (s, [.taskCreated t])) ∨
    (∃ e, executeToolBody env name input g orc = .error e) := by
  unfold executeToolBody
  dsimp only
  repeat' split
  all_goals
    first
    | exact Or.inl ⟨_, rfl⟩
    | exact Or.inr (Or.inl ⟨_, _, rfl⟩)
    | exact Or.inr (Or.inr ⟨_, rfl⟩)

lemma noErrors_executeTool (env : ToolEnv) (name : String) (input : ToolInput)
    (g : String) (orc : Oracle) :
    NoErrorEnvelopes (executeTool env name input g orc).2 := by
  unfold executeTool
  rcases executeToolBody_shape env name input g orc with ⟨s, hs⟩ | ⟨s, t, hs⟩ | ⟨e, hs⟩ <;>
    rw [hs]
  · exact noErrors_nil
  · exact noErrors_cons rfl noErrors_nil
  · exact noErrors_nil

lemma noErrors_runToolUses (env : ToolEnv) (g : String) (orc : Oracle)
    (bs : List ContentBlock) :
    NoErrorEnvelopes (runToolUses env g orc bs).2 := by
  induction bs with
  | nil => exact noErrors_nil
  | cons b bs ih =>
    cases b with
    | tool_use bid bname binput =>
      exact noErrors_append (noErrors_append (noErrors_append
        (noErrors_cons rfl (noErrors_cons rfl noErrors_nil))
        (noErrors_executeTool env bname binput g orc))
        (noErrors_cons rfl (noErrors_cons rfl noErrors_nil))) ih
    | text t => exact ih
    | tool_result i c => exact ih

lemma noErrors_textLogs (g : String) (bs : List ContentBlock) :
    NoErrorEnvelopes (textLogs g bs) := by
  induction bs with
  | nil => exact noErrors_nil
  | cons b bs ih =>
    cases b with
    | text t =>
      cases hlen : (t.length != 0) with
      | true =>
        simp only [textLogs, hlen, if_true]
        exact noErrors_append (noErrors_cons rfl noErrors_nil) ih
      | false =>
        simp only [textLogs, hlen, Bool.false_eq_true, if_false, List.nil_append]
        exact ih
    | tool_use i n inp => exact ih
    | tool_result i c => exact ih

lemma noErrors_runOllamaToolCalls (env : ToolEnv) (g : String) (orc : Oracle)
    (tcs : List OllamaToolCall) :
    NoErrorEnvelopes (runOllamaToolCalls env g orc tcs).2 := by
  induction tcs with
  | nil => exact noErrors_nil
  | cons tc tcs ih =>
    exact noErrors_append (noErrors_append (noErrors_append
      (noErrors_cons rfl (noErrors_cons rfl noErrors_nil))
      (noErrors_executeTool env tc.functionName _ g orc))
      (noErrors_cons rfl (noErrors_cons rfl noErrors_nil))) ih

/-- The posts a round of the Anthropic loop adds for the usage block. -/
lemma noErrors_usagePosts (g model : String) (u : Option AnthropicUsage) :
    NoErrorEnvelopes
      (match u with
       | some u =>
         [WorkerOutbound.tokenUsage { groupId := g
                                      inputTokens := u.input_tokens
                                      outputTokens := u.output_tokens
                                      cacheReadTokens := u.cache_read_input_tokens
                                      cacheCreationTokens := u.cache_creation_input_tokens
                                      contextLimit := getContextLimit model }]
       | none => []) := by
  cases u with
  | none => exact noErrors_nil
  | some u => exact noErrors_cons rfl noErrors_nil

/-- The Anthropic tool-use loop itself never posts an `error` envelope
(error envelopes only arise from the enclosing catch). -/
lemma noErrors_invokeAnthropicLoop (env : ToolEnv)
    (backend : List ConversationMessage → FetchOutcome AnthropicResult)
    (g model : String) (orc : Oracle) :
    ∀ (fuel : Nat) (msgs : List ConversationMessage) (calls : Nat)
      (posts : List WorkerOutbound), NoErrorEnvelopes posts →
      NoErrorEnvelopes
        (invokeAnthropicLoop env backend g model orc fuel msgs calls posts).posts := by
  intro fuel
  induction fuel with
  | zero =>
    intro msgs calls posts hp
    exact noErrors_append hp (noErrors_cons rfl noErrors_nil)
  | succ n ih =>
    intro msgs calls posts hp
    unfold invokeAnthropicLoop
    have hp1 : NoErrorEnvelopes (posts ++
        [logEntry g "api-call" ("API call #" ++ toString (calls + 1))
          (some (toString msgs.length ++ " messages in context"))]) :=
      noErrors_append hp (noErrors_cons rfl noErrors_nil)
    cases hb : backend msgs with
    | httpError st body => exact hp1
    | netError m => exact hp1
    | ok result =>
      have hp2 : NoErrorEnvelopes ((posts ++
          [logEntry g "api-call" ("API call #" ++ toString (calls + 1))
            (some (toString msgs.length ++ " messages in context"))]) ++
          (match result.usage with
           | some u =>
             [WorkerOutbound.tokenUsage { groupId := g
                                          inputTokens := u.input_tokens
                                          outputTokens := u.output_tokens
                                          cacheReadTokens := u.cache_read_input_tokens
                                          cacheCreationTokens := u.cache_creation_input_tokens
                                          contextLimit := getContextLimit model }]
           | none => []) ++ textLogs g result.content) :=
        noErrors_append (noErrors_append hp1 (noErrors_usagePosts g model result.usage))
          (noErrors_textLogs g result.content)
      cases hs : (result.stop_reason == "tool_use") with
      | true =>
        simp only [hs, if_true]
        exact ih _ _ _
          (noErrors_append (noErrors_append hp2
            (noErrors_runToolUses env g orc result.content))
            (noErrors_cons rfl noErrors_nil))
      | false =>
        simp only [hs, Bool.false_eq_true, if_false]
        exact noErrors_append hp2 (noErrors_cons rfl noErrors_nil)

/-- The Ollama tool-use loop itself never posts an `error` envelope. -/
lemma noErrors_invokeOllamaLoop (env : ToolEnv)
    (backend : List OllamaMessage → FetchOutcome OllamaResult)
    (g : String) (orc : Oracle) :
    ∀ (fuel : Nat) (msgs : List OllamaMessage) (calls : Nat)
      (posts : List WorkerOutbound), NoErrorEnvelopes posts →
      NoErrorEnvelopes
        (invokeOllamaLoop env backend g orc fuel msgs calls posts).posts := by
  intro fuel
  induction fuel with
  | zero =>
    intro msgs calls posts hp
    exact noErrors_append hp (noErrors_cons rfl noErrors_nil)
  | succ n ih =>
    intro msgs calls posts hp
    unfold invokeOllamaLoop
    have hp1 : NoErrorEnvelopes (posts ++
        [logEntry g "api-call" ("Ollama API call #" ++ toString (calls + 1))
          (some (toString msgs.length ++ " messages in context"))]) :=
      noErrors_append hp (noErrors_cons rfl noErrors_nil)
    cases hb : backend msgs with
    | httpError st body => exact hp1
    | netError m => exact hp1
    | ok result =>
      have hu : NoErrorEnvelopes
          (match result.usage with
           | some u =>
             [WorkerOutbound.tokenUsage { groupId := g
                                          inputTokens := u.prompt_tokens
                                          outputTokens := u.completion_tokens
                                          cacheReadTokens := 0
                                          cacheCreationTokens := 0
                                          contextLimit := 8192 }]
           | none => []) := by
        cases result.usage with
        | none => exact noErrors_nil
        | some u => exact noErrors_cons rfl noErrors_nil
      have ht : NoErrorEnvelopes
          (if (result.message.content.length != 0) = true
           then [logEntry g "text" "Response text"
                  (some (if result.message.content.length > 200
                         then result.message.content.take 200 ++ "…"
                         else result.message.content))]
           else []) := by
        split
        · exact noErrors_cons rfl noErrors_nil
        · exact noErrors_nil
      have hp2 := noErrors_append (noErrors_append hp1 hu) ht
      cases hs : (result.finish_reason == "tool_calls" &&
          result.message.tool_calls.isSome) with
      | true =>
        simp only [hs, if_true]
        exact ih _ _ _
          (noErrors_append (noErrors_append hp2
            (noErrors_runOllamaToolCalls env g orc (result.message.tool_calls.getD [])))
            (noErrors_cons rfl noErrors_nil))
      | false =>
        simp only [hs, Bool.false_eq_true, if_false]
        exact noErrors_append hp2 (noErrors_cons rfl noErrors_nil)

lemma getLast?_concat {α : Type} (l : List α) (a : α) :
    (l ++ [a]).getLast? = some a := by
  rw [List.getLast?_append_cons]
  rfl

/-- The Anthropic loop performs at most `calls + fuel` backend round
trips. -/
lemma invokeAnthropicLoop_calls_le (env : ToolEnv)
    (backend : List ConversationMessage → FetchOutcome AnthropicResult)
    (g model : String) (orc : Oracle) :
    ∀ (fuel : Nat) (msgs : List ConversationMessage) (calls : Nat)
      (posts : List WorkerOutbound),
      (invokeAnthropicLoop env backend g model orc fuel msgs calls posts).calls ≤
        calls + fuel := by
  intro fuel
  induction fuel with
  | zero =>
    intro msgs calls posts
    simp [invokeAnthropicLoop]
  | succ n ih =>
    intro msgs calls posts
    unfold invokeAnthropicLoop
    cases hb : backend msgs with
    | httpError st body =>
      dsimp only
      omega
    | netError m =>
      dsimp only
      omega
    | ok result =>
      cases hs : (result.stop_reason == "tool_use") with
      | true =>
        simp only [hs, if_true]
        exact le_trans (ih _ _ _) (by omega)
      | false =>
        simp only [hs, Bool.false_eq_true, if_false]
        omega

/-- The Ollama loop performs at most `calls + fuel` backend round
trips. -/
lemma invokeOllamaLoop_calls_le (env : ToolEnv)
    (backend : List OllamaMessage → FetchOutcome OllamaResult)
    (g : String) (orc : Oracle) :
    ∀ (fuel : Nat) (msgs : List OllamaMessage) (calls : Nat)
      (posts : List WorkerOutbound),
      (invokeOllamaLoop env backend g orc fuel msgs calls posts).calls ≤
        calls + fuel := by
  intro fuel
  induction fuel with
  | zero =>
    intro msgs calls posts
    simp [invokeOllamaLoop]
  | succ n ih =>
    intro msgs calls posts
    unfold invokeOllamaLoop
    cases hb : backend msgs with
    | httpError st body =>
      dsimp only
      omega
    | netError m =>
      dsimp only
      omega
    | ok result =>
      cases hs : (result.finish_reason == "tool_calls" &&
          result.message.tool_calls.isSome) with
      | true =>
        simp only [hs, if_true]
        exact le_trans (ih _ _ _) (by omega)
      | false =>
        simp only [hs, Bool.false_eq_true, if_false]
        omega

/-- Against a backend that requests a tool call on every round, the
Anthropic loop spends its whole fuel and ends with the warning
response. -/
lemma invokeAnthropicLoop_alwaysTool (env : ToolEnv)
    (backend : List ConversationMessage → FetchOutcome AnthropicResult)
    (g model : String) (orc : Oracle)
    (hb : ∀ msgs, ∃ r, backend msgs = .ok r ∧ r.stop_reason = "tool_use") :
    ∀ (fuel : Nat) (msgs : List ConversationMessage) (calls : Nat)
      (posts : List WorkerOutbound),
      (invokeAnthropicLoop env backend g model orc fuel msgs calls posts).calls =
        calls + fuel ∧
      (invokeAnthropicLoop env backend g model orc fuel msgs calls posts).thrown =
        none ∧
      (invokeAnthropicLoop env backend g model orc fuel msgs calls posts).posts.getLast? =
        some (.response g maxIterWarningAnthropic) := by
  intro fuel
  induction fuel with
  | zero =>
    intro msgs calls posts
    exact ⟨rfl, rfl, getLast?_concat _ _⟩
  | succ n ih =>
    intro msgs calls posts
    obtain ⟨r, hbe, hsr⟩ := hb msgs
    unfold invokeAnthropicLoop
    rw [hbe]
    have hs : (r.stop_reason == "tool_use") = true := by
      rw [hsr]
      rfl
    simp only [hs, if_true]
    refine ⟨?_, (ih _ _ _).2.1, (ih _ _ _).2.2⟩
    rw [(ih _ _ _).1]
    omega

/-- Against a backend that requests a tool call on every round, the
Ollama loop spends its whole fuel and ends with the warning response. -/
lemma invokeOllamaLoop_alwaysTool (env : ToolEnv)
    (backend : List OllamaMessage → FetchOutcome OllamaResult)
    (g : String) (orc : Oracle)
    (hb : ∀ msgs, ∃ r, backend msgs = .ok r ∧ r.finish_reason = "tool_calls" ∧
      r.message.tool_calls.isSome = true) :
    ∀ (fuel : Nat) (msgs : List OllamaMessage) (calls : Nat)
      (posts : List WorkerOutbound),
      (invokeOllamaLoop env backend g orc fuel msgs calls posts).calls =
        calls + fuel ∧
      (invokeOllamaLoop env backend g orc fuel msgs calls posts).thrown = none ∧
      (invokeOllamaLoop env backend g orc fuel msgs calls posts).posts.getLast? =
        some (.response g maxIterWarningOllama) := by
  intro fuel
  induction fuel with
  | zero =>
    intro msgs calls posts
    exact ⟨rfl, rfl, getLast?_concat _ _⟩
  | succ n ih =>
    intro msgs calls posts
    obtain ⟨r, hbe, hfr, htc⟩ := hb msgs
    unfold invokeOllamaLoop
    rw [hbe]
    have hs : (r.finish_reason == "tool_calls" && r.message.tool_calls.isSome) = true := by
      rw [hfr, htc]
      rfl
    simp only [hs, if_true]
    refine ⟨?_, (ih _ _ _).2.1, (ih _ _ _).2.2⟩
    rw [(ih _ _ _).1]
    omega

/-- Claim **C2** — The tool-use loop performs at most 25 backend round trips in
both protocol variants, for every backend behaviour; and against a
backend stub that requests a tool call on every round it terminates after
exactly 25 rounds, emitting the fixed maximum-iterations warning text as
a `response` envelope — with no `error` envelope anywhere in the posted
stream — in both the Anthropic and the Ollama variant. -/
theorem C2_iteration_bound :
    (∀ (env : ToolEnv) (backend : List ConversationMessage → FetchOutcome AnthropicResult)
       (payload : InvokePayload) (orc : Oracle),
       (invokeAnthropic env backend payload orc).2 ≤ 25) ∧
    (∀ (env : ToolEnv) (backend : List OllamaMessage → FetchOutcome OllamaResult)
       (payload : InvokePayload) (orc : Oracle),
       (invokeOllama env backend payload orc).2 ≤ 25) ∧
    (∀ (env : ToolEnv) (backend : List ConversationMessage → FetchOutcome AnthropicResult)
       (payload : InvokePayload) (orc : Oracle),
       (∀ msgs, ∃ r, backend msgs = .ok r ∧ r.stop_reason = "tool_use") →
       (invokeAnthropic env backend payload orc).2 = 25 ∧
       (invokeAnthropic env backend payload orc).1.getLast? =
         some (.response payload.groupId maxIterWarningAnthropic) ∧
       NoErrorEnvelopes (invokeAnthropic env backend payload orc).1) ∧
    (∀ (env : ToolEnv) (backend : List OllamaMessage → FetchOutcome OllamaResult)
       (payload : InvokePayload) (orc : Oracle),
       (∀ msgs, ∃ r, backend msgs = .ok r ∧ r.finish_reason = "tool_calls" ∧
          r.message.tool_calls.isSome = true) →
       (invokeOllama env backend payload orc).2 = 25 ∧
       (invokeOllama env backend payload orc).1.getLast? =
         some (.response payload.groupId maxIterWarningOllama) ∧
       NoErrorEnvelopes (invokeOllama env backend payload orc).1) := by
  have hpreA : ∀ (payload : InvokePayload), NoErrorEnvelopes
      [WorkerOutbound.typing payload.groupId,
       logEntry payload.groupId "info" "Starting"
         (some ("Model: " ++ payload.model ++ " · Max tokens: " ++
                toString payload.maxTokens))] :=
    fun _ => noErrors_cons rfl (noErrors_cons rfl noErrors_nil)
  have hpreO : ∀ (payload : InvokePayload), NoErrorEnvelopes
      [WorkerOutbound.typing payload.groupId,
       logEntry payload.groupId "info" "Starting (Ollama)"
         (some ("Model: " ++ payload.model))] :=
    fun _ => noErrors_cons rfl (noErrors_cons rfl noErrors_nil)
  refine ⟨?_, ?_, ?_, ?_⟩
  · intro env backend payload orc
    unfold invokeAnthropic
    dsimp only
    have h := invokeAnthropicLoop_calls_le env backend payload.groupId payload.model
      orc 25 payload.messages 0
      [WorkerOutbound.typing payload.groupId,
       logEntry payload.groupId "info" "Starting"
         (some ("Model: " ++ payload.model ++ " · Max tokens: " ++
                toString payload.maxTokens))]
    split <;> simpa using h
  · intro env backend payload orc
    unfold invokeOllama
    dsimp only
    have h := invokeOllamaLoop_calls_le env backend payload.groupId orc 25
      (toOllamaMessages env payload.systemPrompt payload.messages) 0
      [WorkerOutbound.typing payload.groupId,
       logEntry payload.groupId "info" "Starting (Ollama)"
         (some ("Model: " ++ payload.model))]
    split <;> simpa using h
  · intro env backend payload orc hb
    have h := invokeAnthropicLoop_alwaysTool env backend payload.groupId
      payload.model orc hb 25 payload.messages 0
      [WorkerOutbound.typing payload.groupId,
       logEntry payload.groupId "info" "Starting"
         (some ("Model: " ++ payload.model ++ " · Max tokens: " ++
                toString payload.maxTokens))]
    have hne := noErrors_invokeAnthropicLoop env backend payload.groupId
      payload.model orc 25 payload.messages 0 _ (hpreA payload)
    unfold invokeAnthropic
    dsimp only
    rw [h.2.1]
    exact ⟨h.1, h.2.2, hne⟩
  · intro env backend payload orc hb
    have h := invokeOllamaLoop_alwaysTool env backend payload.groupId orc hb 25
      (toOllamaMessages env payload.systemPrompt payload.messages) 0
      [WorkerOutbound.typing payload.groupId,
       logEntry payload.groupId "info" "Starting (Ollama)"
         (some ("Model: " ++ payload.model))]
    have hne := noErrors_invokeOllamaLoop env backend payload.groupId orc 25
      (toOllamaMessages env payload.systemPrompt payload.messages) 0 _ (hpreO payload)
    unfold invokeOllama
    dsimp only
    rw [h.2.1]
    exact ⟨h.1, h.2.2, hne⟩

/-- An Anthropic backend stub requesting one tool call on every round. -/
def alwaysToolBackendA : List ConversationMessage → FetchOutcome AnthropicResult :=
  fun _ => .ok { content := [.tool_use "t1" "read_file" {}],
                 stop_reason := "tool_use", usage := none }

/-- An Ollama backend stub requesting one tool call on every round. -/
def alwaysToolBackendO : List OllamaMessage → FetchOutcome OllamaResult :=
  fun _ => .ok { finish_reason := "tool_calls",
                 message := { role := "assistant", content := "",
                              tool_calls := some [{ id := "1",
                                                    functionName := "read_file",
                                                    argumentsRaw := none }] },
                 usage := none }

/-- A fixed invocation payload for witnesses. -/
def stubPayload : InvokePayload :=
  { groupId := "g", messages := [], systemPrompt := "s", provider := .anthropic,
    apiKey := "k", ollamaUrl := "u", model := "m", maxTokens := 10 }

/-- Claim **C2 witness** — the concrete always-tool stubs terminate at exactly
25 rounds with the warning response in both variants. -/
theorem C2_iteration_bound_witness :
    (invokeAnthropic throwingEnv alwaysToolBackendA stubPayload {}).2 = 25 ∧
    (invokeAnthropic throwingEnv alwaysToolBackendA stubPayload {}).1.getLast? =
      some (.response "g" maxIterWarningAnthropic) ∧
    (invokeOllama throwingEnv alwaysToolBackendO stubPayload {}).2 = 25 ∧
    (invokeOllama throwingEnv alwaysToolBackendO stubPayload {}).1.getLast? =
      some (.response "g" maxIterWarningOllama) := by
  have hA := C2_iteration_bound.2.2.1 throwingEnv alwaysToolBackendA stubPayload {}
    (fun _ => ⟨_, rfl, rfl⟩)
  have hO := C2_iteration_bound.2.2.2 throwingEnv alwaysToolBackendO stubPayload {}
    (fun _ => ⟨_, rfl, rfl, rfl⟩)
  exact ⟨hA.1, hA.2.1, hO.1, hO.2.1⟩

lemma string_eq_empty_of_length {s : String} (h : s.length = 0) : s = "" := by
  cases s with
  | mk data =>
    cases data with
    | nil => rfl
    | cons c cs => simp [String.length] at h

/-- A first-round final (non-tool) response: the loop posts the cleaned
text as its last envelope and throws nothing. -/
lemma invokeAnthropicLoop_first_final (env : ToolEnv)
    (backend : List ConversationMessage → FetchOutcome AnthropicResult)
    (g model : String) (orc : Oracle) (fuel : Nat)
    (msgs : List ConversationMessage) (calls : Nat)
    (posts : List WorkerOutbound) (r : AnthropicResult)
    (hb : backend msgs = .ok r) (hs : (r.stop_reason == "tool_use") = false) :
    (invokeAnthropicLoop env backend g model orc (fuel + 1) msgs calls posts).posts.getLast? =
      some (.response g (finalResponseText (joinTexts r.content))) ∧
    (invokeAnthropicLoop env backend g model orc (fuel + 1) msgs calls posts).thrown =
      none := by
  unfold invokeAnthropicLoop
  rw [hb]
  simp only [hs, Bool.false_eq_true, if_false]
  exact ⟨getLast?_concat _ _, trivial⟩

/-- A first-round final (non-tool) response in the Ollama loop. -/
lemma invokeOllamaLoop_first_final (env : ToolEnv)
    (backend : List OllamaMessage → FetchOutcome OllamaResult)
    (g : String) (orc : Oracle) (fuel : Nat)
    (msgs : List OllamaMessage) (calls : Nat)
    (posts : List WorkerOutbound) (r : OllamaResult)
    (hb : backend msgs = .ok r)
    (hs : (r.finish_reason == "tool_calls" && r.message.tool_calls.isSome) = false) :
    (invokeOllamaLoop env backend g orc (fuel + 1) msgs calls posts).posts.getLast? =
      some (.response g (ollamaFinalText r.message.content)) ∧
    (invokeOllamaLoop env backend g orc (fuel + 1) msgs calls posts).thrown = none := by
  unfold invokeOllamaLoop
  rw [hb]
  simp only [hs, Bool.false_eq_true, if_false]
  exact ⟨getLast?_concat _ _, trivial⟩

/-- Claim **C10** — If the final response text of the backend is empty, or becomes
empty after stripping `<internal>` sections and trimming, the worker
emits the literal `(no response)` placeholder instead of an empty string,
in both protocol variants; and whenever the backend answers the initial
transcript with a final (non-tool) response, the last posted envelope is
a `response` carrying exactly the cleaned-or-placeholder text. -/
theorem C10_no_response_placeholder :
    (∀ t : String, jsTrim (stripInternalTags t) = "" →
      finalResponseText t = "(no response)") ∧
    finalResponseText "" = "(no response)" ∧
    (∀ c : String, jsTrim (stripInternalTags c) = "" →
      ollamaFinalText c = "(no response)") ∧
    ollamaFinalText "" = "(no response)" ∧
    (∀ (env : ToolEnv) (backend : List ConversationMessage → FetchOutcome AnthropicResult)
       (payload : InvokePayload) (orc : Oracle) (r : AnthropicResult),
       backend payload.messages = .ok r → (r.stop_reason == "tool_use") = false →
       (invokeAnthropic env backend payload orc).1.getLast? =
         some (.response payload.groupId (finalResponseText (joinTexts r.content)))) ∧
    (∀ (env : ToolEnv) (backend : List OllamaMessage → FetchOutcome OllamaResult)
       (payload : InvokePayload) (orc : Oracle) (r : OllamaResult),
       backend (toOllamaMessages env payload.systemPrompt payload.messages) = .ok r →
       (r.finish_reason == "tool_calls" && r.message.tool_calls.isSome) = false →
       (invokeOllama env backend payload orc).1.getLast? =
         some (.response payload.groupId (ollamaFinalText r.message.content))) := by
  refine ⟨?_, by decide, ?_, by decide, ?_, ?_⟩
  · intro t h
    simp [finalResponseText, h]
  · intro c h
    by_cases hl : (c.length != 0) = true
    · simp [ollamaFinalText, hl, h]
    · have h0 : c.length = 0 := by simpa using hl
      rw [string_eq_empty_of_length h0]
      decide
  · intro env backend payload orc r hb hs
    have h := invokeAnthropicLoop_first_final env backend payload.groupId
      payload.model orc 24 payload.messages 0
      [WorkerOutbound.typing payload.groupId,
       logEntry payload.groupId "info" "Starting"
         (some ("Model: " ++ payload.model ++ " · Max tokens: " ++
                toString payload.maxTokens))] r hb hs
    have h25t : (invokeAnthropicLoop env backend payload.groupId payload.model orc
        25 payload.messages 0
        [WorkerOutbound.typing payload.groupId,
         logEntry payload.groupId "info" "Starting"
           (some ("Model: " ++ payload.model ++ " · Max tokens: " ++
                  toString payload.maxTokens))]).thrown = none := h.2
    have h25l : (invokeAnthropicLoop env backend payload.groupId payload.model orc
        25 payload.messages 0
        [WorkerOutbound.typing payload.groupId,
         logEntry payload.groupId "info" "Starting"
           (some ("Model: " ++ payload.model ++ " · Max tokens: " ++
                  toString payload.maxTokens))]).posts.getLast? =
        some (.response payload.groupId
          (finalResponseText (joinTexts r.content))) := h.1
    unfold invokeAnthropic
    dsimp only
    rw [h25t]
    exact h25l
  · intro env backend payload orc r hb hs
    have h := invokeOllamaLoop_first_final env backend payload.groupId orc 24
      (toOllamaMessages env payload.systemPrompt payload.messages) 0
      [WorkerOutbound.typing payload.groupId,
       logEntry payload.groupId "info" "Starting (Ollama)"
         (some ("Model: " ++ payload.model))] r hb hs
    have h25t : (invokeOllamaLoop env backend payload.groupId orc 25
        (toOllamaMessages env payload.systemPrompt payload.messages) 0
        [WorkerOutbound.typing payload.groupId,
         logEntry payload.groupId "info" "Starting (Ollama)"
           (some ("Model: " ++ payload.model))]).thrown = none := h.2
    have h25l : (invokeOllamaLoop env backend payload.groupId orc 25
        (toOllamaMessages env payload.systemPrompt payload.messages) 0
        [WorkerOutbound.typing payload.groupId,
         logEntry payload.groupId "info" "Starting (Ollama)"
           (some ("Model: " ++ payload.model))]).posts.getLast? =
        some (.response payload.groupId (ollamaFinalText r.message.content)) := h.1
    unfold invokeOllama
    dsimp only
    rw [h25t]
    exact h25l

/-- Claim **C10 witness** — a backend whose sole text strips to nothing makes
the worker emit the placeholder. -/
theorem C10_no_response_placeholder_witness :
    jsTrim (stripInternalTags " <internal>secret</internal> ") = "" ∧
    finalResponseText " <internal>secret</internal> " = "(no response)" := by
  have h : jsTrim (stripInternalTags " <internal>secret</internal> ") = "" := by decide
  exact ⟨h, C10_no_response_placeholder.1 " <internal>secret</internal> " h⟩

/-- A backend protocol error on a round makes the loop record the
pending `Anthropic API error <status>: <body>` exception after exactly
the api-call log of that round. -/
lemma invokeAnthropicLoop_httpError (env : ToolEnv)
    (backend : List ConversationMessage → FetchOutcome AnthropicResult)
    (g model : String) (orc : Oracle) (fuel : Nat)
    (msgs : List ConversationMessage) (calls : Nat)
    (posts : List WorkerOutbound) (st : Nat) (body : String)
    (hb : backend msgs = .httpError st body) :
    invokeAnthropicLoop env backend g model orc (fuel + 1) msgs calls posts =
      { posts := posts ++
          [logEntry g "api-call" ("API call #" ++ toString (calls + 1))
            (some (toString msgs.length ++ " messages in context"))],
        calls := calls + 1,
        thrown := some ("Anthropic API error " ++ toString st ++ ": " ++ body) } := by
  unfold invokeAnthropicLoop
  rw [hb]

/-- A concrete coordinator with one prior stored message, for the C7
counterexample. -/
def priorCoordinator : Orchestrator :=
  { apiKey := "k",
    store := [{ id := "0", groupId := "g", sender := "u", content := "earlier",
                timestamp := 0, channel := .browser, isFromMe := false,
                isTrigger := true }] }

/-- Claim **C7 counterexample** — handling a backend-error envelope does write
to the stored conversation history: the coordinator persists the
formatted error reply, so the history is not left in its prior state. -/
theorem C7_counterexample :
    ((priorCoordinator.handleWorkerMessage (.error "g" "boom") {}).1).store ≠
      priorCoordinator.store := by
  decide

/-- Claim **C7 amended** — On a backend protocol error (non-success HTTP
status) the worker posts exactly one `error` envelope carrying
`Anthropic API error <status>: <body>` (and never more than one error
envelope for any backend behaviour); the coordinator renders it as the
formatted chat reply `⚠️ Error: <message>`, routes it to the channel,
and appends exactly that one reply to the stored history of the group — the
prior messages are preserved unchanged as a prefix, and no other write
(in particular no partial transcript of the failed invocation) occurs;
the state returns to `idle`. -/
theorem C7_error_envelope_path :
    (∀ (env : ToolEnv) (backend : List ConversationMessage → FetchOutcome AnthropicResult)
       (payload : InvokePayload) (orc : Oracle) (st : Nat) (body : String),
       backend payload.messages = .httpError st body →
       (invokeAnthropic env backend payload orc).1.filter isErrorEnvelope =
         [.error payload.groupId
           ("Anthropic API error " ++ toString st ++ ": " ++ body)]) ∧
    (∀ (env : ToolEnv) (backend : List ConversationMessage → FetchOutcome AnthropicResult)
       (payload : InvokePayload) (orc : Oracle),
       ((invokeAnthropic env backend payload orc).1.filter isErrorEnvelope).length ≤ 1) ∧
    (∀ (o : Orchestrator) (g e : String) (orc : Oracle),
       ((o.handleWorkerMessage (.error g e) orc).1).store =
         o.store ++ [{ id := orc.freshId, groupId := g, sender := o.assistantName,
                       content := "⚠️ Error: " ++ e, timestamp := orc.now,
                       channel := channelOf g, isFromMe := true,
                       isTrigger := false }] ∧
       Effect.routerSend g ("⚠️ Error: " ++ e) ∈
         (o.handleWorkerMessage (.error g e) orc).2 ∧
       ((o.handleWorkerMessage (.error g e) orc).1).state = .idle) := by
  refine ⟨?_, ?_, ?_⟩
  · intro env backend payload orc st body hb
    have hstep := invokeAnthropicLoop_httpError env backend payload.groupId
      payload.model orc 24 payload.messages 0
      [WorkerOutbound.typing payload.groupId,
       logEntry payload.groupId "info" "Starting"
         (some ("Model: " ++ payload.model ++ " · Max tokens: " ++
                toString payload.maxTokens))] st body hb
    have h25 : invokeAnthropicLoop env backend payload.groupId payload.model orc
        25 payload.messages 0
        [WorkerOutbound.typing payload.groupId,
         logEntry payload.groupId "info" "Starting"
           (some ("Model: " ++ payload.model ++ " · Max tokens: " ++
                  toString payload.maxTokens))] =
        { posts := [WorkerOutbound.typing payload.groupId,
            logEntry payload.groupId "info" "Starting"
              (some ("Model: " ++ payload.model ++ " · Max tokens: " ++
                     toString payload.maxTokens))] ++
            [logEntry payload.groupId "api-call" ("API call #" ++ toString (0 + 1))
              (some (toString payload.messages.length ++ " messages in context"))],
          calls := 0 + 1,
          thrown := some ("Anthropic API error " ++ toString st ++ ": " ++ body) } :=
      hstep
    unfold invokeAnthropic
    dsimp only
    rw [h25]
    simp [isErrorEnvelope, logEntry]
  · intro env backend payload orc
    have hne := noErrors_invokeAnthropicLoop env backend payload.groupId
      payload.model orc 25 payload.messages 0
      [WorkerOutbound.typing payload.groupId,
       logEntry payload.groupId "info" "Starting"
         (some ("Model: " ++ payload.model ++ " · Max tokens: " ++
                toString payload.maxTokens))]
      (noErrors_cons rfl (noErrors_cons rfl noErrors_nil))
    unfold invokeAnthropic
    dsimp only
    cases ht : (invokeAnthropicLoop env backend payload.groupId payload.model orc
        25 payload.messages 0
        [WorkerOutbound.typing payload.groupId,
         logEntry payload.groupId "info" "Starting"
           (some ("Model: " ++ payload.model ++ " · Max tokens: " ++
                  toString payload.maxTokens))]).thrown with
    | none =>
      simp [noErrors_filter hne]
    | some e =>
      simp [List.filter_append, noErrors_filter hne, isErrorEnvelope]
  · intro o g e orc
    unfold Orchestrator.handleWorkerMessage Orchestrator.deliverResponse
      Orchestrator.setState
    dsimp only
    cases hmem : o.pendingScheduledTasks.contains g <;>
      exact ⟨rfl, by simp, rfl⟩

/-- A backend stub answering every round with a 401 protocol error. -/
def errorBackend : List ConversationMessage → FetchOutcome AnthropicResult :=
  fun _ => .httpError 401 "bad key"

/-- Claim **C7 witness** — the 401-failing backend produces exactly one error
envelope with the protocol error text. -/
theorem C7_error_envelope_path_witness :
    (invokeAnthropic throwingEnv errorBackend stubPayload {}).1.filter
        isErrorEnvelope =
      [.error "g" "Anthropic API error 401: bad key"] := by
  have h := C7_error_envelope_path.1 throwingEnv errorBackend stubPayload {}
    401 "bad key" rfl
  exact h

end OpenBrowserClaw
